import Mathlib

/-!
# GameserverQuery: shallow embedding and verification

A shallow embedding of the core of the GameserverQuery repository
(protocol codecs for A2S, Minecraft and Terraria, the protocol
registry, and the query engine), with theorems settling the frozen
claims about the natural-language specification.

Modelling conventions:
* Machine bytes are `Nat` (values kept below 256 by serializers);
  Go byte slices are `List Nat`.
* Go strings are Lean `String`s; parsed wire strings are byte lists
  converted with `bytesToStr` at the point where the Go code calls
  `string(bytes)` (ASCII reading of the bytes).
* Network I/O is factored into explicit environment records: each
  fallible network operation is an oracle field (`Option` = success or
  failure), and each operation has a duration in whole milliseconds so
  that wall-clock measurements (`time.Now`/`time.Since`) become sums of
  the durations of the operations performed in between.
* Go functions that return `(*T, error)` become functions returning
  `Option T × Option String` (`none` in the first component models a
  nil pointer, `none` in the second a nil error).
* Go nil slices versus empty slices are `Option (List _)`:
  `none` models a nil slice, `some []` an allocated empty slice.
* Floating point is not interpreted: the A2S player "seconds
  connected" field is kept as its raw little-endian 32-bit pattern
  (`durationBits`), which is all the claims under verification need.
-/

/-- ASCII bytes of a Lean string, as the Go `[]byte(s)` conversion. -/
def strBytes (s : String) : List Nat :=
  s.data.map Char.toNat

/-- ASCII reading of a byte list, as the Go `string(b)` conversion. -/
def bytesToStr (l : List Nat) : String :=
  String.mk (l.map fun b => Char.ofNat b)

/-- protocol.Player (registry.go): one player entry in a result. -/
structure Player where
  name : String := ""
  score : Nat := 0
  /-- raw little-endian bit pattern of the float32 duration field -/
  durationBits : Nat := 0
deriving Repr, DecidableEq

/-- protocol.PlayerInfo (registry.go): counts plus optional list.
`list = none` models a Go nil slice, `some l` a non-nil slice. -/
structure PlayerInfo where
  current : Nat := 0
  max : Nat := 0
  list : Option (List Player) := none
deriving Repr, DecidableEq

/-- protocol.ServerInfo (registry.go). -/
structure ServerInfo where
  name : String := ""
  game : String := ""
  version : String := ""
  address : String := ""
  port : Nat := 0
  queryPort : Nat := 0
  players : PlayerInfo := {}
  mapName : String := ""
  ping : Nat := 0
  online : Bool := false
  /-- `none` models a nil Extra map -/
  extra : Option (List (String × String)) := none
deriving Repr, DecidableEq

/-- protocol.Options (registry.go). Durations are milliseconds. -/
structure Options where
  timeout : Nat := 5000
  port : Nat := 0
  players : Bool := false
  portRange : List Nat := []
  maxConcurrency : Nat := 0
  discoveryMode : Bool := false
  debug : Bool := false
deriving Repr, DecidableEq

/-- protocol.DiscoveryTimeout = 300ms (registry.go). -/
def DiscoveryTimeout : Nat := 300

/-- getTimeout (registry.go): discovery mode shortens the timeout. -/
def getTimeout (opts : Options) : Nat :=
  if opts.discoveryMode then DiscoveryTimeout else opts.timeout

/-- ASCII whitespace test (model of `unicode.IsSpace` / the regex
class over the ASCII range, which is all these protocols emit). -/
def isWS (c : Char) : Bool :=
  c = ' ' || c = '\t' || c = '\n' || c = '\r' || c = '\x0b' || c = '\x0c'

/-- strings.TrimSpace on a character list. -/
def trimSpace (l : List Char) : List Char :=
  ((l.dropWhile isWS).reverse.dropWhile isWS).reverse

/-- strings.TrimSpace on a string. -/
def trimStr (s : String) : String :=
  ⟨trimSpace s.data⟩

/-- strings.Contains: `pat` occurs as a contiguous run of `l`. -/
def listContainsSub (pat : List Char) : List Char → Bool
  | [] => pat.isEmpty
  | c :: t => pat.isPrefixOf (c :: t) || listContainsSub pat t

/-- strings.Contains on strings. -/
def strContains (s pat : String) : Bool :=
  listContainsSub pat.data s.data

/-- fmt.Sscanf with "%d" on the all-digit decimal strings the codecs
produce (written over the character list so that it evaluates inside
the kernel). -/
def parseDecimal (s : String) : Option Nat :=
  if s.data ≠ [] && s.data.all Char.isDigit then
    some (s.data.foldl (fun a c => a * 10 + (c.toNat - 48)) 0)
  else none

/-- Result shape of a Go `(*ServerInfo, error)` call, together with the
wall-clock milliseconds the call consumed (the sum of the durations of
the network operations it performed). -/
structure GoResult where
  info : Option ServerInfo := none
  err : Option String := none
  elapsed : Nat := 0
deriving Repr, DecidableEq

namespace A2S

/-- The parsed A2S_INFO response (struct A2SInfo, a2s.go); wire
strings are kept as byte lists at this level. -/
structure Info where
  protocolVersion : Nat := 0
  name : List Nat := []
  mapName : List Nat := []
  folder : List Nat := []
  game : List Nat := []
  appID : Nat := 0
  players : Nat := 0
  maxPlayers : Nat := 0
  bots : Nat := 0
  serverType : Nat := 0
  environment : Nat := 0
  visibility : Nat := 0
  vac : Nat := 0
  version : List Nat := []
deriving Repr, DecidableEq

/-- One bounds-checked byte read (the `offset >= len(data)` checks of
parseA2SInfoResponse, a2s.go). -/
def readByte (data : List Nat) (off : Nat) (msg : String) : Except String Nat :=
  if off < data.length then .ok (data.getD off 0) else .error msg

/-- Bounds-checked `binary.LittleEndian.Uint16` read (the
`offset+1 >= len(data)` check of parseA2SInfoResponse, a2s.go). -/
def readU16LE (data : List Nat) (off : Nat) (msg : String) : Except String Nat :=
  if off + 1 < data.length then .ok (data.getD off 0 + 256 * data.getD (off + 1) 0)
  else .error msg

/-- `binary.LittleEndian.Uint32` over four already-bounds-checked bytes. -/
def u32le (data : List Nat) (off : Nat) : Nat :=
  data.getD off 0 + 256 * data.getD (off + 1) 0 + 65536 * data.getD (off + 2) 0
    + 16777216 * data.getD (off + 3) 0

/-- readNullTerminatedString (a2s.go): scan from `off` to the first
zero byte; reaching the end without a zero is an error; on success
return the scanned bytes and the offset one past the terminator. -/
def readNullTerminatedString (data : List Nat) (off : Nat) :
    Except String (List Nat × Nat) :=
  let s := (data.drop off).takeWhile fun b => b ≠ 0
  if data.length ≤ off + s.length then .error "unterminated string"
  else .ok (s, off + s.length + 1)

/-- parseA2SInfoResponse (a2s.go): sequential bounds-checked reads of
the packed A2S_INFO payload (payload after the 0x49 type byte). -/
def parseA2SInfoResponse (data : List Nat) : Except String Info :=
  if data.length < 1 then .error "data too short" else do
  let protocolVersion ← readByte data 0 "missing protocol version"
  let (name, o1) ← readNullTerminatedString data 1
  let (mapName, o2) ← readNullTerminatedString data o1
  let (folder, o3) ← readNullTerminatedString data o2
  let (game, o4) ← readNullTerminatedString data o3
  let appID ← readU16LE data o4 "missing app ID"
  let players ← readByte data (o4 + 2) "missing players"
  let maxPlayers ← readByte data (o4 + 3) "missing max players"
  let bots ← readByte data (o4 + 4) "missing bots"
  let serverType ← readByte data (o4 + 5) "missing server type"
  let environment ← readByte data (o4 + 6) "missing environment"
  let visibility ← readByte data (o4 + 7) "missing visibility"
  let vac ← readByte data (o4 + 8) "missing VAC"
  let (version, _) ← readNullTerminatedString data (o4 + 9)
  return { protocolVersion, name, mapName, folder, game, appID, players,
           maxPlayers, bots, serverType, environment, visibility, vac, version }

/-- Little-endian 4-byte encoding used when building test payloads. -/
def le4 (n : Nat) : List Nat :=
  [n % 256, n / 256 % 256, n / 65536 % 256, n / 16777216 % 256]

/-- Serialization of an A2S_INFO payload, following the wire layout the
parser consumes (protocol byte, four NUL-terminated strings, uint16
AppID, seven single-byte fields, NUL-terminated version string). -/
def serializeInfo (i : Info) : List Nat :=
  [i.protocolVersion] ++ i.name ++ [0] ++ i.mapName ++ [0] ++ i.folder ++ [0]
    ++ i.game ++ [0] ++ [i.appID % 256, i.appID / 256 % 256]
    ++ [i.players, i.maxPlayers, i.bots, i.serverType, i.environment,
        i.visibility, i.vac]
    ++ i.version ++ [0]

/-- The serialized layout after the fourth string: AppID bytes, seven
single-byte fields, version string (a proof-side view of
`serializeInfo`). -/
def tailFixed (i : Info) : List Nat :=
  i.appID % 256 :: i.appID / 256 % 256 :: i.players :: i.maxPlayers :: i.bots ::
    i.serverType :: i.environment :: i.visibility :: i.vac :: (i.version ++ [0])

/-- The serialized layout from the game string on. -/
def tailGame (i : Info) : List Nat := i.game ++ 0 :: tailFixed i

/-- The serialized layout from the folder string on. -/
def tailFolder (i : Info) : List Nat := i.folder ++ 0 :: tailGame i

/-- The serialized layout from the map string on. -/
def tailMap (i : Info) : List Nat := i.mapName ++ 0 :: tailFolder i

/-- The serialized layout from the name string on. -/
def tailName (i : Info) : List Nat := i.name ++ 0 :: tailMap i

/-- A payload is well formed when its wire strings carry no NUL byte. -/
def ValidInfo (i : Info) : Prop :=
  0 ∉ i.name ∧ 0 ∉ i.mapName ∧ 0 ∉ i.folder ∧ 0 ∉ i.game ∧ 0 ∉ i.version

instance (i : Info) : Decidable (ValidInfo i) := by
  unfold ValidInfo; infer_instance

/-- The per-player record loop of parsePlayersResponse (a2s.go): any
bounds failure mid-record stops the loop and returns what was
accumulated so far. -/
def parsePlayersLoop (data : List Nat) : Nat → Nat → List Player → List Player
  | 0, _, acc => acc.reverse
  | count + 1, off, acc =>
    if data.length ≤ off then acc.reverse
    else
      match readNullTerminatedString data (off + 1) with
      | .error _ => acc.reverse
      | .ok (nameBytes, o) =>
        if data.length ≤ o + 3 then acc.reverse
        else if data.length ≤ o + 7 then acc.reverse
        else
          parsePlayersLoop data count (o + 8)
            ({ name := bytesToStr nameBytes, score := u32le data o,
               durationBits := u32le data (o + 4) } :: acc)

/-- parsePlayersResponse (a2s.go): player-count byte then records. -/
def parsePlayersResponse (data : List Nat) : Except String (List Player) :=
  if data.length < 1 then .error "data too short"
  else .ok (parsePlayersLoop data (data.getD 0 0) 1 [])

/-- Serialization of one A2S_PLAYER record (index byte, NUL-terminated
name, int32 score, float32 duration bits). -/
def serializePlayer (index : Nat) (name : List Nat) (score durBits : Nat) : List Nat :=
  [index] ++ name ++ [0] ++ le4 score ++ le4 durBits

/-- Network oracle for one A2S query: the outcome and duration of each
fallible network operation the codec may perform.  A `none` response
models a failed write/read on that exchange. -/
structure Env where
  connOk : Bool := true
  connDur : Nat := 0
  firstResp : Option (List Nat) := none
  firstDur : Nat := 0
  chalResp : Option (List Nat) := none
  chalDur : Nat := 0
  playerResp : Option (List Nat) := none
  playerChalResp : Option (List Nat) := none
  playerDur : Nat := 0
deriving Repr, DecidableEq

/-- detectByAppID (a2s.go): Steam AppID string to game identifier. -/
def detectByAppID (appIDStr : String) : String :=
  match parseDecimal appIDStr with
  | none => ""
  | some appID =>
    if appID = 730 then "counter-strike"
    else if appID = 240 then "counter-strike"
    else if appID = 4000 then "garrys-mod"
    else if appID = 440 then "team-fortress-2"
    else if appID = 550 then "left-4-dead-2"
    else if appID = 500 then "left-4-dead"
    else if appID = 320 then "half-life"
    else if appID = 300 then "day-of-defeat"
    else if appID = 252490 then "rust"
    else if appID = 346110 then "ark-survival-evolved"
    else if appID = 222880 then "insurgency"
    else if appID = 108600 then "project-zomboid"
    else if appID = 526870 then "satisfactory"
    else if appID = 251570 then "7-days-to-die"
    else if appID = 892970 then "valheim"
    else if appID = 107410 then "arma-3"
    else if appID = 221100 then "dayz"
    else if appID = 489940 then "battalion-1944"
    else ""

/-- A2SProtocol.DetectGame (a2s.go). -/
def DetectGame (info : ServerInfo) : String :=
  if !info.online then "a2s"
  else
    match info.extra with
    | none => "a2s"
    | some extra =>
      match extra.lookup "app_id" with
      | none => "a2s"
      | some appIDStr =>
        let game := detectByAppID appIDStr
        if game ≠ "" then game else "a2s"

/-- queryPlayers (a2s.go): A2S_PLAYER exchange with one optional
challenge retry, then parsePlayersResponse on the payload. -/
def queryPlayers (env : Env) : Except String (List Player) :=
  match env.playerResp with
  | none => .error "player exchange failed"
  | some resp =>
    if resp.length < 5 then .error "player response too short"
    else
      let afterChallenge : Except String (List Nat) :=
        if resp.getD 4 0 = 0x41 then
          if resp.length < 9 then .error "player challenge too short"
          else
            match env.playerChalResp with
            | none => .error "player challenge exchange failed"
            | some r2 => .ok r2
        else .ok resp
      match afterChallenge with
      | .error e => .error e
      | .ok r =>
        if r.length < 6 ∨ r.getD 4 0 ≠ 0x44 then .error "invalid player response"
        else parsePlayersResponse (r.drop 5)

/-- The ServerInfo built from a parsed A2S_INFO payload; shared here by
the direct and the challenge path, which duplicate this construction in
the source (a2s.go).  `ping` is the value the codec stores. -/
def buildResult (env : Env) (i : Info) (ping : Nat) (opts : Options) : ServerInfo :=
  let base : ServerInfo :=
    { name := bytesToStr i.name
      mapName := bytesToStr i.mapName
      version := bytesToStr i.version
      online := true
      players := { current := i.players, max := i.maxPlayers, list := none }
      ping := ping
      extra := some [("game", bytesToStr i.game), ("app_id", toString i.appID)] }
  let base := { base with game := DetectGame base }
  if opts.players then
    match queryPlayers env with
    | .ok players => { base with players.list := some players }
    | .error _ => { base with players.list := some [] }
  else base

/-- queryWithChallenge (a2s.go): re-send with the challenge token; the
ping stored in the result is `initialPing` from the first exchange. -/
def queryWithChallenge (env : Env) (initialPing : Nat) (opts : Options)
    (elapsed : Nat) : GoResult :=
  match env.chalResp with
  | none =>
    { info := some { online := false }, err := some "read challenge response failed",
      elapsed := elapsed + env.chalDur }
  | some c =>
    let elapsed := elapsed + env.chalDur
    if c.length < 5 ∨ c.getD 4 0 ≠ 0x49 then
      { info := some { online := false }, err := some "invalid challenge response",
        elapsed := elapsed }
    else
      match parseA2SInfoResponse (c.drop 5) with
      | .error e =>
        { info := some { online := false }, err := some e, elapsed := elapsed }
      | .ok i =>
        { info := some (buildResult env i initialPing opts), err := none
          elapsed := elapsed + if opts.players then env.playerDur else 0 }

/-- A2SProtocol.Query (a2s.go) over the network oracle: connection
setup, A2S_INFO exchange (ping measured over exactly this exchange),
optional challenge retry, parse, then optional player listing. -/
def Query (env : Env) (opts : Options) : GoResult :=
  if !env.connOk then
    { info := some { online := false }, err := some "connection failed",
      elapsed := env.connDur }
  else
    match env.firstResp with
    | none =>
      { info := some { online := false }, err := some "write or read failed",
        elapsed := env.connDur + env.firstDur }
    | some resp =>
      let ping := env.firstDur
      let elapsed := env.connDur + env.firstDur
      if resp.length < 5 then
        { info := some { online := false }, err := some "response too short",
          elapsed := elapsed }
      else if resp.getD 4 0 = 0x41 then
        if resp.length < 9 then
          { info := some { online := false }, err := some "challenge response too short",
            elapsed := elapsed }
        else queryWithChallenge env ping opts elapsed
      else if resp.getD 4 0 ≠ 0x49 then
        { info := some { online := false }, err := some "unexpected response type",
          elapsed := elapsed }
      else
        match parseA2SInfoResponse (resp.drop 5) with
        | .error e =>
          { info := some { online := false }, err := some e, elapsed := elapsed }
        | .ok i =>
          { info := some (buildResult env i ping opts), err := none
            elapsed := elapsed + if opts.players then env.playerDur else 0 }

end A2S

namespace Minecraft

/-- One fragment of a rich-text `extra` array: a JSON object with an
optional string `text` field, a bare JSON string, or any other JSON
value (which cleanMotd ignores). -/
inductive MotdItem where
  | objItem (text : Option String)
  | strItem (s : String)
  | otherItem
deriving Repr, DecidableEq

/-- The duck-typed `description` JSON value handed to cleanMotd: a
plain JSON string, an object with optional `text` field and optional
`extra` array, or any other JSON value. -/
inductive MotdValue where
  | str (s : String)
  | obj (text : Option String) (extra : Option (List MotdItem))
  | other
deriving Repr, DecidableEq

/-- Text contributed by one `extra` fragment (cleanMotd, minecraft.go). -/
def itemText : MotdItem → List Char
  | .objItem (some t) => t.data
  | .objItem none => []
  | .strItem s => s.data
  | .otherItem => []

/-- The type-switch and concatenation phase of cleanMotd
(minecraft.go): object base text then each `extra` fragment in order. -/
def concatText : MotdValue → List Char
  | .str s => s.data
  | .obj text extra =>
    (match text with | some t => t.data | none => [])
      ++ (extra.getD []).foldr (fun item acc => itemText item ++ acc) []
  | .other => []

/-- The character class of the color-code regex `§[0-9a-fk-or]`. -/
def isFormatCode (c : Char) : Bool :=
  let n := c.toNat
  (48 ≤ n && n ≤ 57) || (97 ≤ n && n ≤ 102) || (107 ≤ n && n ≤ 111) || n = 114

/-- `regexp.ReplaceAllString` of `§[0-9a-fk-or]` with the empty string:
left-to-right removal of non-overlapping two-character escapes. -/
def stripColorCodes : List Char → List Char
  | [] => []
  | c :: rest =>
    if c = '§' then
      match rest with
      | [] => [c]
      | d :: rest' =>
        if isFormatCode d then stripColorCodes rest'
        else c :: stripColorCodes (d :: rest')
    else c :: stripColorCodes rest

/-- cleanMotd (minecraft.go): concatenate, strip escapes, trim. -/
def cleanMotd (m : MotdValue) : String :=
  ⟨trimSpace (stripColorCodes (concatText m))⟩

/-- An entry of the status `players.sample` array. -/
structure SamplePlayer where
  name : String := ""
  id : String := ""
deriving Repr, DecidableEq

/-- MinecraftStatus (minecraft.go): the decoded status JSON.
`sample = none` models the JSON field being absent (nil slice). -/
structure Status where
  versionName : String := ""
  versionProtocol : Nat := 0
  playersMax : Nat := 0
  playersOnline : Nat := 0
  sample : Option (List SamplePlayer) := none
  description : MotdValue := .other
  favicon : String := ""
deriving Repr, DecidableEq

/-- DetectGameFromResponse (gamedetector.go) for the protocol names the
embedded codecs pass ("minecraft" and "terraria" map to themselves;
offline falls back to the protocol name).  The "source"/"rust" branch
(detectSourceGame) is unreachable from the embedded codecs and is
modelled by the same fallback. -/
def DetectGameFromResponse (info : ServerInfo) (protocolName : String) : String :=
  if !info.online then protocolName
  else if protocolName = "minecraft" then "minecraft"
  else if protocolName = "terraria" then "terraria"
  else protocolName

/-- Network oracle for one Minecraft query.  The VarInt framing, the
packet-id/JSON-length reads and the JSON decoding of the status
response are folded into the `statusResp` oracle (`none` models any
read/framing/JSON failure). -/
structure Env where
  connOk : Bool := true
  connDur : Nat := 0
  hostPortOk : Bool := true
  handshakeOk : Bool := true
  statusResp : Option Status := none
  statusDur : Nat := 0
deriving Repr, DecidableEq

/-- MinecraftProtocol.Query (minecraft.go) over the network oracle:
connection, address split, handshake, status exchange (ping measured
over the status exchange), MOTD cleaning and optional player sample. -/
def Query (env : Env) (opts : Options) : GoResult :=
  if !env.connOk then
    { info := some { online := false }, err := some "connection failed",
      elapsed := env.connDur }
  else if !env.hostPortOk then
    { info := some { online := false }, err := some "invalid address",
      elapsed := env.connDur }
  else if !env.handshakeOk then
    { info := some { online := false }, err := some "handshake failed",
      elapsed := env.connDur }
  else
    match env.statusResp with
    | none =>
      { info := some { online := false }, err := some "read response failed",
        elapsed := env.connDur + env.statusDur }
    | some status =>
      let motd := cleanMotd status.description
      let base : ServerInfo :=
        { name := motd
          version := status.versionName
          online := true
          ping := env.statusDur
          players := { current := status.playersOnline, max := status.playersMax,
                       list := none } }
      let base := { base with game := DetectGameFromResponse base "minecraft" }
      let info :=
        if opts.players then
          match status.sample with
          | some sample =>
            let mapped : List Player := sample.map fun p => { name := p.name }
            { base with players.list := some mapped }
          | none => { base with players.list := some [] }
        else base
      { info := some info, err := none, elapsed := env.connDur + env.statusDur }

end Minecraft

namespace Terraria

/-- TShockStatus (terraria.go): decoded TShock REST status JSON. -/
structure TShockStatus where
  name : String := ""
  world : String := ""
  playercount : Nat := 0
  maxplayers : Nat := 0
  terrariaVersion : String := ""
  tshockVersion : String := ""
  difficulty : Nat := 0
deriving Repr, DecidableEq

/-- Value of decimal digit characters. -/
def digitsToNat (l : List Char) : Nat :=
  l.foldl (fun a c => a * 10 + (c.toNat - 48)) 0

/-- Match a literal character sequence, returning the rest on success. -/
def matchLit : List Char → List Char → Option (List Char)
  | [], l => some l
  | _, [] => none
  | p :: ps, c :: cs => if p = c then matchLit ps cs else none

/-- Optional single `s` (the `s?` of the player-count regexes). -/
def optS : List Char → List Char
  | 's' :: r => r
  | r => r

/-- Leftmost match: try the matcher at every suffix, left to right
(the search order of regexp.FindStringSubmatch). -/
def scanFind (f : List Char → Option α) : List Char → Option α
  | [] => f []
  | c :: t =>
    match f (c :: t) with
    | some r => some r
    | none => scanFind f t

/-- The regex `Online players?:\s*(\d+)/?(\d+)?` anchored at the start
of `l` (terraria.go pattern 1). -/
def pat1At (l : List Char) : Option (Nat × Option Nat) := do
  let r ← matchLit "Online player".data l
  match optS r with
  | ':' :: r2 =>
    let r3 := r2.dropWhile isWS
    let ds := r3.takeWhile Char.isDigit
    if ds.isEmpty then none
    else
      let r4 := r3.dropWhile Char.isDigit
      let second : Option Nat :=
        match r4 with
        | '/' :: r5 =>
          let ds2 := r5.takeWhile Char.isDigit
          if ds2.isEmpty then none else some (digitsToNat ds2)
        | _ => none
      some (digitsToNat ds, second)
  | _ => none

/-- The regex `Players? online:\s*(\d+)` anchored at the start of `l`
(terraria.go pattern 2). -/
def pat2At (l : List Char) : Option Nat := do
  let r ← matchLit "Player".data l
  let r2 ← matchLit " online:".data (optS r)
  let r3 := r2.dropWhile isWS
  let ds := r3.takeWhile Char.isDigit
  if ds.isEmpty then none else some (digitsToNat ds)

/-- The regex `(\d+)\s+players? currently online` anchored at the
start of `l` (terraria.go pattern 3). -/
def pat3At (l : List Char) : Option Nat := do
  let ds := l.takeWhile Char.isDigit
  if ds.isEmpty then none
  else
    let r := l.dropWhile Char.isDigit
    let ws := r.takeWhile isWS
    if ws.isEmpty then none
    else
      let r2 ← matchLit "player".data (r.dropWhile isWS)
      let _ ← matchLit " currently online".data (optS r2)
      some (digitsToNat ds)

/-- Two-digit lowercase hex of a byte (the `%02x` of the unknown packet
type name). -/
def hex2 (n : Nat) : String :=
  let d := fun k => if k < 10 then Char.ofNat (48 + k) else Char.ofNat (87 + k)
  ⟨[d (n / 16 % 16), d (n % 16)]⟩

/-- The colon-delimited player-name extraction of parseResponse
(terraria.go): split on ":", trim the second part, split it on ","
and keep the non-empty trimmed names. -/
def extractIntoInfo (text : List Char) (info : ServerInfo) : ServerInfo :=
  let textStr : String := ⟨text⟩
  let parts := textStr.splitOn ":"
  if parts.length > 1 then
    let playerList := trimStr (parts.getD 1 "")
    if playerList ≠ "" && playerList ≠ "None" &&
        !(strContains playerList "No players") then
      let names := ((playerList.splitOn ",").map trimStr).filter (· ≠ "")
      let plist : List Player := names.map fun n => { name := n }
      let info := { info with players.list := some plist }
      if plist.length > 0 then { info with players.current := plist.length }
      else info
    else info
  else info

/-- parseResponse (terraria.go): any structurally valid length-prefixed
response proves the server online; packet type 0x19 (chat) additionally
gets regex heuristics applied to the embedded text. -/
def parseResponse (data : List Nat) : Except String ServerInfo :=
  if data.length < 5 then .error "response too short"
  else
    let packetType := data.getD 4 0
    if packetType = 0x13 then
      .ok { name := "Terraria Server (Player Info)", game := "terraria",
            version := "Unknown", online := true,
            players := { current := 0, max := 8, list := some [] } }
    else if packetType ≠ 0x19 then
      .ok { name := "Terraria Server (Type: 0x" ++ hex2 packetType ++ ")",
            game := "terraria", version := "Unknown", online := true,
            players := { current := 0, max := 8, list := some [] } }
    else
      if data.length ≤ 5 then .error "missing player ID"
      else if data.length ≤ 6 then .error "missing text length"
      else
        let textLength := data.getD 6 0
        if data.length < 7 + textLength then .error "text length exceeds data"
        else
          let text : List Char := ((data.drop 7).take textLength).map Char.ofNat
          let info : ServerInfo :=
            { name := "Terraria Server", game := "terraria",
              version := "Unknown", online := true,
              players := { current := 0, max := 8, list := none } }
          let info :=
            match scanFind pat1At text with
            | some (cur, mx) =>
              let info := { info with players.current := cur }
              match mx with
              | some m => { info with players.max := m }
              | none => info
            | none => info
          let info :=
            match scanFind pat2At text with
            | some cur => { info with players.current := cur }
            | none => info
          let info :=
            match scanFind pat3At text with
            | some cur => { info with players.current := cur }
            | none => info
          let info := { info with players.list := some [] }
          .ok (extractIntoInfo text info)

/-- Network oracle for one Terraria query: TCP dial to the game port,
the TShock REST tier (all endpoint attempts folded into one oracle,
`none` = every endpoint failed), and the native probe exchange. -/
structure Env where
  connOk : Bool := true
  connDur : Nat := 0
  hostPortOk : Bool := true
  tshock : Option TShockStatus := none
  tshockDur : Nat := 0
  nativeResp : Option (List Nat) := none
  nativeDur : Nat := 0
deriving Repr, DecidableEq

/-- queryTShockAPI (terraria.go): address split then the REST status
endpoints; the successful decode yields the REST-derived ServerInfo. -/
def queryTShockAPI (env : Env) : Except String ServerInfo :=
  if !env.hostPortOk then .error "invalid address"
  else
    match env.tshock with
    | none => .error "TShock API not available"
    | some st =>
      .ok { name := st.name
            version := st.terrariaVersion
            online := true
            players := { current := st.playercount, max := st.maxplayers,
                         list := some [] }
            game := "terraria"
            extra := some [("world", st.world), ("tshock", st.tshockVersion),
                           ("difficulty", toString st.difficulty)] }

/-- TerrariaProtocol.Query (terraria.go) over the network oracle: TCP
connection to the game port first, then the REST tier, then the native
5-byte probe.  The clock for Ping starts after connection setup. -/
def Query (env : Env) (opts : Options) : GoResult :=
  if !env.connOk then
    { info := some { online := false }, err := some "connection failed",
      elapsed := env.connDur }
  else
    match queryTShockAPI env with
    | .ok inf =>
      { info := some { inf with ping := env.tshockDur }, err := none,
        elapsed := env.connDur + env.tshockDur }
    | .error _ =>
      match env.nativeResp with
      | none =>
        { info := some { online := false }, err := some "read failed",
          elapsed := env.connDur + env.tshockDur + env.nativeDur }
      | some data =>
        let ping := env.tshockDur + env.nativeDur
        match parseResponse data with
        | .error e =>
          { info := some { online := false }, err := some e,
            elapsed := env.connDur + env.tshockDur + env.nativeDur }
        | .ok inf =>
          { info := some { inf with ping := ping }, err := none,
            elapsed := env.connDur + env.tshockDur + env.nativeDur }

end Terraria

/-- protocol.GameConfig (registry.go). -/
structure GameConfig where
  name : String
  gamePort : Nat
  queryPort : Nat
deriving Repr, DecidableEq

/-- The three registered protocol codecs. -/
inductive ProtoId where
  | a2s
  | minecraft
  | terraria
deriving Repr, DecidableEq

/-- Protocol.Name for each codec. -/
def ProtoId.protoName : ProtoId → String
  | .a2s => "a2s"
  | .minecraft => "minecraft"
  | .terraria => "terraria"

/-- Protocol.DefaultPort for each codec (a2s.go / minecraft.go /
terraria.go). -/
def ProtoId.defaultPort : ProtoId → Nat
  | .a2s => 27015
  | .minecraft => 25565
  | .terraria => 7777

/-- Protocol.DefaultQueryPort for each codec. -/
def ProtoId.defaultQueryPort : ProtoId → Nat
  | .a2s => 27015
  | .minecraft => 25565
  | .terraria => 7777

/-- A2SProtocol.Games (a2s.go): the per-game port metadata. -/
def a2sGames : List GameConfig :=
  [ ⟨"counter-strike-2", 27015, 27015⟩,
    ⟨"counter-strike", 27015, 27015⟩,
    ⟨"counter-source", 27015, 27015⟩,
    ⟨"garrys-mod", 27015, 27015⟩,
    ⟨"team-fortress-2", 27015, 27015⟩,
    ⟨"left-4-dead", 27015, 27015⟩,
    ⟨"left-4-dead-2", 27015, 27015⟩,
    ⟨"half-life", 27015, 27015⟩,
    ⟨"insurgency", 27015, 27015⟩,
    ⟨"day-of-defeat", 27015, 27015⟩,
    ⟨"project-zomboid", 16261, 16261⟩,
    ⟨"satisfactory", 7777, 15777⟩,
    ⟨"7-days-to-die", 26900, 26900⟩,
    ⟨"arma-3", 2302, 2303⟩,
    ⟨"dayz", 2302, 27016⟩,
    ⟨"battalion-1944", 7777, 7777⟩,
    ⟨"rust", 28015, 28015⟩,
    ⟨"valheim", 2456, 2457⟩,
    ⟨"ark-survival-evolved", 7777, 27015⟩ ]

/-- Protocol.Games for each codec. -/
def ProtoId.games : ProtoId → List GameConfig
  | .a2s => a2sGames
  | .minecraft => [⟨"minecraft", 25565, 25565⟩]
  | .terraria => [⟨"terraria", 7777, 7777⟩]

/-- protocol.Registry (registry.go): name→codec map plus alias table.
Maps are association lists where the most recent insertion (list head)
wins, which is Go map-assignment semantics. -/
structure Registry where
  protocols : List (String × ProtoId) := []
  aliases : List (String × String) := []
deriving Repr, DecidableEq

/-- Registry.Register (registry.go): record the protocol under its
name and auto-register its non-trivial game names as aliases. -/
def Registry.register (r : Registry) (p : ProtoId) : Registry :=
  let r := { r with protocols := (p.protoName, p) :: r.protocols }
  p.games.foldl
    (fun r g =>
      if g.name ≠ "" && g.name ≠ p.protoName then
        { r with aliases := (g.name, p.protoName) :: r.aliases }
      else r)
    r

/-- Registry.RegisterAlias (registry.go). -/
def Registry.registerAlias (r : Registry) (aliasName target : String) : Registry :=
  { r with aliases := (aliasName, target) :: r.aliases }

/-- Registry.Get (registry.go): a direct protocol name wins; otherwise
the alias table is consulted and the aliased protocol looked up.  The
Bool is Go's `exists` result. -/
def Registry.get (r : Registry) (name : String) : Option ProtoId × Bool :=
  match r.protocols.lookup name with
  | some p => (some p, true)
  | none =>
    match r.aliases.lookup name with
    | some target => (r.protocols.lookup target, true)
    | none => (none, false)

/-- Registry.GetGameConfig (registry.go): resolve the protocol, then
the exact per-game config, falling back to the protocol defaults. -/
def Registry.getGameConfig (r : Registry) (gameName : String) :
    Option (GameConfig × ProtoId) :=
  match (r.get gameName).1 with
  | none => none
  | some p =>
    match p.games.find? (fun g => g.name = gameName) with
    | some g => some (g, p)
    | none => some (⟨p.protoName, p.defaultPort, p.defaultQueryPort⟩, p)

/-- The global registry after package initialization: the three codecs
registered in source-file order (a2s.go, minecraft.go, terraria.go). -/
def theRegistry : Registry :=
  (((Registry.mk [] []).register .a2s).register .minecraft).register .terraria

/-- protocol.GetProtocol (registry.go): lookup in the global registry. -/
def GetProtocol (name : String) : Option ProtoId × Bool :=
  theRegistry.get name

namespace Engine

/-- The port half of parseAddress (query.go): a port in the address
string wins, then a nonzero Options.Port, then the supplied default. -/
def parseAddressPort (addrPort : Option Nat) (optPort defaultPort : Nat) : Nat :=
  match addrPort with
  | some p => p
  | none => if optPort = 0 then defaultPort else optPort

/-- Port targeted by executeSingleQuery (engine.go): parseAddress with
the protocol's DefaultPort as fallback, then SinglePortStrategy's main
port (which re-falls back to DefaultPort when zero). -/
def resolveSingleQueryPort (game : String) (addrPort : Option Nat)
    (optsPort : Nat) : Option Nat :=
  match (GetProtocol game).1 with
  | none => none
  | some p =>
    let port := parseAddressPort addrPort optsPort p.defaultPort
    some (if port = 0 then p.defaultPort else port)

/-- The engine's success test `err == nil && info.Online` on one codec
call. -/
def success (a : GoResult) : Bool :=
  a.err.isNone && (match a.info with | some i => i.online | none => false)

/-- setServerInfoFields (query.go / engine.go): stamp the address, the
port and the wall-clock duration of the whole codec call as Ping. -/
def setServerInfoFields (info : ServerInfo) (host : String) (port : Nat)
    (elapsed : Nat) : ServerInfo :=
  { info with address := host, port := port, ping := elapsed }

/-- tryProtocolsOnPort (engine.go): try each codec outcome in turn on
one port; the first success wins, exhaustion is the per-port terminal
error. -/
def tryProtocolsOnPort (host : String) (port : Nat) :
    List GoResult → Except String ServerInfo
  | [] => .error "no responsive server found on port"
  | a :: rest =>
    if success a then
      .ok (setServerInfoFields (a.info.getD {}) host port a.elapsed)
    else tryProtocolsOnPort host port rest

/-- queryWithServerInfo (engine.go / query.go): forward codec errors,
and on an online result overwrite Address/Port/Ping with
setServerInfoFields. -/
def queryWithServerInfo (a : GoResult) (host : String) (port : Nat) :
    Option ServerInfo × Option String :=
  match a.err with
  | some e => (none, some e)
  | none =>
    match a.info with
    | some info =>
      (if info.online then some (setServerInfoFields info host port a.elapsed)
       else some info, none)
    | none => (none, none)

/-- Candidate outcomes feeding one executeSingleQuery run: the primary
port's codec outcome, then for each adjacent port the per-protocol
outcomes tried by tryProtocolsOnPort. -/
structure SingleEnv where
  primary : GoResult
  adjacent : List (Nat × List GoResult)
deriving Repr, DecidableEq

/-- The adjacent-port loop of executeSingleQuery (engine.go). -/
def singleAdjacentLoop (host : String) :
    List (Nat × List GoResult) → Except String (List ServerInfo)
  | [] => .error "no responsive server found at address or adjacent ports"
  | (port, atts) :: rest =>
    match tryProtocolsOnPort host port atts with
    | .ok info => .ok [info]
    | .error _ => singleAdjacentLoop host rest

/-- executeSingleQuery (engine.go) after game/address resolution: the
primary attempt, then the adjacent ports, then the terminal error. -/
def executeSingleQuery (host : String) (port0 : Nat) (env : SingleEnv) :
    Except String (List ServerInfo) :=
  if success env.primary then
    .ok [setServerInfoFields (env.primary.info.getD {}) host port0
          env.primary.elapsed]
  else singleAdjacentLoop host env.adjacent

/-- executeAutoDetectQuery (engine.go) after address resolution: the
port-preference candidates followed by the popularity-ordered
candidates, tried in order; first success wins, exhaustion is the
terminal error. -/
def executeAutoDetectQuery (host : String) :
    List (Nat × GoResult) → Except String (List ServerInfo)
  | [] => .error "no responsive server found at address"
  | (port, a) :: rest =>
    if success a then
      .ok [setServerInfoFields (a.info.getD {}) host port a.elapsed]
    else executeAutoDetectQuery host rest

/-- The per-port protocol loop of executeDiscoveryQuery (engine.go) /
DiscoverServers (query.go): first success on the port, if any. -/
def discoverPort (host : String) (port : Nat) :
    List GoResult → Option ServerInfo
  | [] => none
  | a :: rest =>
    if success a then
      some (setServerInfoFields (a.info.getD {}) host port a.elapsed)
    else discoverPort host port rest

/-- executeDiscoveryQuery (engine.go) / DiscoverServers (query.go)
after port selection: collect the per-port successes; the error
component of the result is always nil.  (Worker concurrency is
flattened to port order; the claims do not depend on result order.) -/
def executeDiscoveryQuery (host : String)
    (perPort : List (Nat × List GoResult)) : List ServerInfo × Option String :=
  (perPort.filterMap (fun pr => discoverPort host pr.1 pr.2), none)

/-- engine.queryWithServerInfo applied to the A2S codec (the path that
surfaces a single A2S query, query.go / engine.go): run the codec, and
on an online result overwrite Ping with the wall-clock duration of the
whole codec call. -/
def queryWithServerInfoA2S (env : A2S.Env) (opts : Options) (host : String)
    (port : Nat) : Option ServerInfo × Option String :=
  queryWithServerInfo (A2S.Query env opts) host port

/-- The dead-port cutoff of discoverPortsDynamically (query.go /
engine.go): 3 consecutive non-responsive ports end a directional scan. -/
def deadPortThreshold : Nat := 3

/-- The upward half of discoverPortsDynamically: walk ports upward,
skipping already-recorded ports (resetting the failure counter),
recording responsive ports, and stopping at `deadPortThreshold`
consecutive dead ports or at port 65535.  Returns the updated record
set and the list of ports actually probed (passed to hasActiveServer),
in probe order.  `fuel` bounds the recursion and is called with more
fuel than ports remain. -/
def scanUp (active : Nat → Bool) : List Nat → Nat → Nat → Nat →
    List Nat × List Nat
  | rec, _, 0, _ => (rec, [])
  | rec, port, fuel + 1, failures =>
    if 65535 < port then (rec, [])
    else if rec.contains port then scanUp active rec (port + 1) fuel 0
    else if active port then
      let r := scanUp active (port :: rec) (port + 1) fuel 0
      (r.1, port :: r.2)
    else if deadPortThreshold ≤ failures + 1 then (rec, [port])
    else
      let r := scanUp active rec (port + 1) fuel (failures + 1)
      (r.1, port :: r.2)

/-- The downward half of discoverPortsDynamically: as `scanUp` but
walking down and stopping below port 1024. -/
def scanDown (active : Nat → Bool) : List Nat → Nat → Nat → Nat →
    List Nat × List Nat
  | rec, _, 0, _ => (rec, [])
  | rec, port, fuel + 1, failures =>
    if port < 1024 then (rec, [])
    else if rec.contains port then scanDown active rec (port - 1) fuel 0
    else if active port then
      let r := scanDown active (port :: rec) (port - 1) fuel 0
      (r.1, port :: r.2)
    else if deadPortThreshold ≤ failures + 1 then (rec, [port])
    else
      let r := scanDown active rec (port - 1) fuel (failures + 1)
      (r.1, port :: r.2)

/-- The probes performed while handling one seed: the unconditional
seed probe, then the upward scan's probes, then the downward scan's. -/
structure SeedLog where
  seed : Nat
  upProbes : List Nat
  downProbes : List Nat
deriving Repr, DecidableEq

/-- discoverPortsDynamically (query.go / engine.go) over an abstract
responsiveness oracle `active` (the outcome of hasActiveServer) and an
explicit seed list (the registered protocols' default ports, in map
iteration order): probe each seed, then expand upward and downward.
Returns the recorded responsive ports and a per-seed probe log. -/
def discoverPortsDynamically (active : Nat → Bool) :
    List Nat → List Nat → List Nat × List SeedLog
  | rec, [] => (rec, [])
  | rec, s :: rest =>
    let rec1 :=
      if active s then (if rec.contains s then rec else s :: rec) else rec
    let up := scanUp active rec1 (s + 1) 65536 0
    let down := scanDown active up.1 (s - 1) 65536 0
    let rest' := discoverPortsDynamically active down.1 rest
    (rest'.1, ⟨s, up.2, down.2⟩ :: rest'.2)

/-- All ports passed to hasActiveServer during a discovery run. -/
def probeLog (logs : List SeedLog) : List Nat :=
  logs.foldr (fun e acc => e.seed :: (e.upProbes ++ e.downProbes ++ acc)) []

end Engine

/-- Whether an Except value is a success. -/
def okE : Except String α → Bool
  | .ok _ => true
  | .error _ => false

/-!  Concrete instances used to exercise the theorems below. -/

/-- The registry after an explicit RegisterAlias call that shadows a
protocol name, exercising Get's precedence. -/
def overlapRegistry : Registry :=
  theRegistry.registerAlias "minecraft" "a2s"

/-- A full A2S_INFO response packet around a payload. -/
def a2sInfoPacket (i : A2S.Info) : List Nat :=
  [255, 255, 255, 255, 0x49] ++ A2S.serializeInfo i

/-- An A2S oracle answering the first exchange with a valid A2S_INFO
response (and failing the optional player exchange). -/
def c1okEnv : A2S.Env :=
  { firstResp := some (a2sInfoPacket {}) }

/-- A Minecraft oracle answering the status exchange with a status
without a player sample. -/
def c1okMcEnv : Minecraft.Env :=
  { statusResp := some {} }

/-- An A2S oracle going through the challenge path with distinct
nonzero durations for every operation. -/
def c6env : A2S.Env :=
  { connDur := 1
    firstResp := some [255, 255, 255, 255, 0x41, 7, 0, 0, 0]
    firstDur := 10
    chalResp := some (a2sInfoPacket {})
    chalDur := 100
    playerDur := 1000 }

/-- A codec outcome representing a transport failure. -/
def failAttempt : GoResult :=
  { info := some { online := false }, err := some "read failed" }

/-- A complete single-record A2S_PLAYER payload (count byte plus one
full record). -/
def c4PlayerPayload : List Nat :=
  [1] ++ A2S.serializePlayer 0 [97] 5 0

/-- A nontrivial valid A2S_INFO payload description. -/
def c4Info : A2S.Info :=
  { protocolVersion := 17, name := [65, 66], mapName := [100], folder := [102],
    game := [103, 104], appID := 730, players := 3, maxPlayers := 16,
    bots := 1, serverType := 100, environment := 108, visibility := 0,
    vac := 1, version := [49, 46, 48] }

/-- A responsiveness oracle with servers on 27015 and 27017 only. -/
def c8active : Nat → Bool := fun p => p = 27015 || p = 27017

/-- The probe log produced for seed 27015 under `c8active`. -/
def c8entry : Engine.SeedLog :=
  ⟨27015, [27016, 27017, 27018, 27019, 27020], [27014, 27013, 27012]⟩

/-- The ServerInfo the TShock REST tier derives from a default status. -/
def c5RestInfo : ServerInfo :=
  { name := "", version := "", online := true,
    players := { current := 0, max := 0, list := some [] },
    game := "terraria",
    extra := some [("world", ""), ("tshock", ""), ("difficulty", "0")] }

/-- The ServerInfo surfaced by the engine for the `c6env` A2S query. -/
def c6SurfacedInfo : ServerInfo :=
  (Engine.queryWithServerInfoA2S c6env { players := true } "h" 27015).1.getD {}

/-!  ## Theorems -/

theorem a2s_error_offline (env : A2S.Env) (opts : Options) :
    (A2S.Query env opts).err = none ∨
    ∃ si, (A2S.Query env opts).info = some si ∧ si.online = false := by
  simp only [A2S.Query, A2S.queryWithChallenge]
  repeat' split
  all_goals first
    | exact .inl rfl
    | exact .inr ⟨_, rfl, rfl⟩

theorem minecraft_error_offline (env : Minecraft.Env) (opts : Options) :
    (Minecraft.Query env opts).err = none ∨
    ∃ si, (Minecraft.Query env opts).info = some si ∧ si.online = false := by
  simp only [Minecraft.Query]
  repeat' split
  all_goals first
    | exact .inl rfl
    | exact .inr ⟨_, rfl, rfl⟩

theorem terraria_error_offline (env : Terraria.Env) (opts : Options) :
    (Terraria.Query env opts).err = none ∨
    ∃ si, (Terraria.Query env opts).info = some si ∧ si.online = false := by
  simp only [Terraria.Query, Terraria.queryTShockAPI]
  repeat' split
  all_goals first
    | exact .inl rfl
    | exact .inr ⟨_, rfl, rfl⟩

/-- Claim C9: whenever a codec's Query returns a non-nil error, it also
returns a non-nil ServerInfo with Online=false; no codec pairs an error
with a nil result or an Online=true result. -/
theorem c9_codec_error_pairing :
    ∀ (ea : A2S.Env) (em : Minecraft.Env) (et : Terraria.Env) (opts : Options),
      ((A2S.Query ea opts).err.isSome = true →
        ∃ si, (A2S.Query ea opts).info = some si ∧ si.online = false) ∧
      ((Minecraft.Query em opts).err.isSome = true →
        ∃ si, (Minecraft.Query em opts).info = some si ∧ si.online = false) ∧
      ((Terraria.Query et opts).err.isSome = true →
        ∃ si, (Terraria.Query et opts).info = some si ∧ si.online = false) := by
  refine fun ea em et opts => ⟨fun h => ?_, fun h => ?_, fun h => ?_⟩
  · rcases a2s_error_offline ea opts with he | hs
    · rw [he] at h; simp at h
    · exact hs
  · rcases minecraft_error_offline em opts with he | hs
    · rw [he] at h; simp at h
    · exact hs
  · rcases terraria_error_offline et opts with he | hs
    · rw [he] at h; simp at h
    · exact hs

/-- Witness for C9: the three codecs at concrete failing oracles. -/
theorem c9_codec_error_pairing_witness :
    (∃ si, (A2S.Query { connOk := false } {}).info = some si ∧ si.online = false) ∧
    (∃ si, (Minecraft.Query { connOk := false } {}).info = some si ∧
      si.online = false) ∧
    (∃ si, (Terraria.Query { connOk := false } {}).info = some si ∧
      si.online = false) := by
  have h := c9_codec_error_pairing { connOk := false } { connOk := false }
    { connOk := false } {}
  exact ⟨h.1 (by decide), h.2.1 (by decide), h.2.2 (by decide)⟩

theorem a2s_list_none_of_err (env : A2S.Env) (opts : Options) :
    (A2S.Query env opts).err = none ∨
    ((A2S.Query env opts).info.getD {}).players.list = none := by
  simp only [A2S.Query, A2S.queryWithChallenge]
  repeat' split
  all_goals first
    | exact .inl rfl
    | exact .inr rfl

theorem a2s_list_iff_of_ok (env : A2S.Env) (opts : Options) :
    (A2S.Query env opts).err.isSome = true ∨
    (((A2S.Query env opts).info.getD {}).players.list = none ↔
      opts.players = false) := by
  simp only [A2S.Query, A2S.queryWithChallenge, A2S.buildResult]
  repeat' split
  all_goals first
    | exact .inl rfl
    | simp_all

theorem minecraft_list_none_of_err (env : Minecraft.Env) (opts : Options) :
    (Minecraft.Query env opts).err = none ∨
    ((Minecraft.Query env opts).info.getD {}).players.list = none := by
  simp only [Minecraft.Query]
  repeat' split
  all_goals first
    | exact .inl rfl
    | exact .inr rfl

theorem minecraft_list_iff_of_ok (env : Minecraft.Env) (opts : Options) :
    (Minecraft.Query env opts).err.isSome = true ∨
    (((Minecraft.Query env opts).info.getD {}).players.list = none ↔
      opts.players = false) := by
  simp only [Minecraft.Query]
  repeat' split
  all_goals first
    | exact .inl rfl
    | simp_all

theorem terraria_extract_list_some (text : List Char) (i : ServerInfo) :
    (∃ l, i.players.list = some l) →
    ∃ l, (Terraria.extractIntoInfo text i).players.list = some l := by
  intro hi
  simp only [Terraria.extractIntoInfo]
  repeat' split
  all_goals first
    | exact ⟨_, rfl⟩
    | exact hi

theorem terraria_parse_list_some (data : List Nat) :
    ∀ inf, Terraria.parseResponse data = .ok inf →
      ∃ l, inf.players.list = some l := by
  simp only [Terraria.parseResponse]
  repeat' split
  all_goals intro inf h
  all_goals cases h
  all_goals first
    | exact ⟨_, rfl⟩
    | exact terraria_extract_list_some _ _ ⟨_, rfl⟩

theorem terraria_tshock_list_some (env : Terraria.Env) :
    ∀ inf, Terraria.queryTShockAPI env = .ok inf →
      inf.players.list = some [] := by
  simp only [Terraria.queryTShockAPI]
  repeat' split
  all_goals intro inf h
  all_goals cases h
  all_goals rfl

theorem terraria_list_some_of_ok (env : Terraria.Env) (opts : Options) :
    (Terraria.Query env opts).err.isSome = true ∨
    ∃ l, ((Terraria.Query env opts).info.getD {}).players.list = some l := by
  simp only [Terraria.Query]
  repeat' split
  all_goals first
    | exact .inl rfl
    | (rename_i inf heq
       exact .inr (terraria_parse_list_some _ inf heq))
    | (rename_i inf heq
       exact .inr ⟨[], terraria_tshock_list_some env inf heq⟩)

theorem terraria_list_none_of_err (env : Terraria.Env) (opts : Options) :
    (Terraria.Query env opts).err = none ∨
    ((Terraria.Query env opts).info.getD {}).players.list = none := by
  simp only [Terraria.Query, Terraria.queryTShockAPI]
  repeat' split
  all_goals first
    | exact .inl rfl
    | exact .inr rfl

/-- Counterexample to claim C1 as stated: a successful Terraria query
with the Players option off still returns a non-nil (empty) player
list, where the claim demands a nil list. -/
theorem c1_players_list_counterexample :
    ({} : Options).players = false ∧
    (Terraria.Query { connOk := true, tshock := some {} } {}).err = none ∧
    ((Terraria.Query { connOk := true, tshock := some {} } {}).info.getD
      {}).players.list ≠ none := by
  decide

/-- Claim C1 (amended): on successful queries, A2S and Minecraft return
a Players.List that is nil exactly when the Players option is false;
successful Terraria queries always return a non-nil (possibly empty)
list regardless of the option; and every error result from any codec
carries a nil list. -/
theorem c1_players_list_discipline :
    ∀ (ea : A2S.Env) (em : Minecraft.Env) (et : Terraria.Env) (opts : Options),
      ((A2S.Query ea opts).err = none →
        (((A2S.Query ea opts).info.getD {}).players.list = none ↔
          opts.players = false)) ∧
      ((A2S.Query ea opts).err.isSome = true →
        ((A2S.Query ea opts).info.getD {}).players.list = none) ∧
      ((Minecraft.Query em opts).err = none →
        (((Minecraft.Query em opts).info.getD {}).players.list = none ↔
          opts.players = false)) ∧
      ((Minecraft.Query em opts).err.isSome = true →
        ((Minecraft.Query em opts).info.getD {}).players.list = none) ∧
      ((Terraria.Query et opts).err = none →
        ∃ l, ((Terraria.Query et opts).info.getD {}).players.list = some l) ∧
      ((Terraria.Query et opts).err.isSome = true →
        ((Terraria.Query et opts).info.getD {}).players.list = none) := by
  intro ea em et opts
  refine ⟨fun h => ?_, fun h => ?_, fun h => ?_, fun h => ?_, fun h => ?_,
    fun h => ?_⟩
  · rcases a2s_list_iff_of_ok ea opts with hs | hiff
    · rw [h] at hs; simp at hs
    · exact hiff
  · rcases a2s_list_none_of_err ea opts with he | hl
    · rw [he] at h; simp at h
    · exact hl
  · rcases minecraft_list_iff_of_ok em opts with hs | hiff
    · rw [h] at hs; simp at hs
    · exact hiff
  · rcases minecraft_list_none_of_err em opts with he | hl
    · rw [he] at h; simp at h
    · exact hl
  · rcases terraria_list_some_of_ok et opts with hs | hl
    · rw [h] at hs; simp at hs
    · exact hl
  · rcases terraria_list_none_of_err et opts with he | hl
    · rw [he] at h; simp at h
    · exact hl

/-- Witness for C1 (amended) at concrete oracles: A2S success with the
option on gives a non-nil list, Minecraft success with the option off
gives a nil list, Terraria success always gives a non-nil list. -/
theorem c1_players_list_discipline_witness :
    ((A2S.Query c1okEnv { players := true }).info.getD {}).players.list ≠ none ∧
    ((Minecraft.Query c1okMcEnv {}).info.getD {}).players.list = none ∧
    (∃ l, ((Terraria.Query { tshock := some {} } {}).info.getD
      {}).players.list = some l) := by
  have h1 := (c1_players_list_discipline c1okEnv c1okMcEnv { tshock := some {} }
    { players := true }).1
  have h2 := (c1_players_list_discipline c1okEnv c1okMcEnv { tshock := some {} }
    {}).2.2.1
  have h5 := (c1_players_list_discipline c1okEnv c1okMcEnv { tshock := some {} }
    {}).2.2.2.2.1
  refine ⟨fun hn => ?_, (h2 (by decide)).mpr (by decide), h5 (by decide)⟩
  have := (h1 (by decide)).mp hn
  simp at this

theorem dropWhile_idem (p : α → Bool) (l : List α) :
    (l.dropWhile p).dropWhile p = l.dropWhile p := by
  induction l with
  | nil => rfl
  | cons c t ih =>
    by_cases h : p c
    · simp [List.dropWhile_cons, h, ih]
    · simp [List.dropWhile_cons, h]

theorem head_dropWhile_false (p : α → Bool) (l : List α) :
    ∀ c, (l.dropWhile p).head? = some c → p c = false := by
  induction l with
  | nil => intro c h; simp at h
  | cons a t ih =>
    intro c h
    by_cases hp : p a = true
    · rw [List.dropWhile_cons, if_pos hp] at h
      exact ih c h
    · rw [List.dropWhile_cons, if_neg hp] at h
      simp at h
      subst h
      exact Bool.eq_false_iff.mpr hp

theorem dropWhile_eq_self_of_head (p : α → Bool) (l : List α)
    (h : ∀ c, l.head? = some c → p c = false) : l.dropWhile p = l := by
  cases l with
  | nil => rfl
  | cons a t =>
    have := h a rfl
    simp [List.dropWhile_cons, this]

theorem dropWhile_append_singleton (p : α → Bool) (a : α) (hp : p a = false) :
    ∀ xs : List α, (xs ++ [a]).dropWhile p = xs.dropWhile p ++ [a] := by
  intro xs
  induction xs with
  | nil => simp [List.dropWhile_cons, hp]
  | cons x t ih =>
    by_cases hx : p x = true
    · simp [List.dropWhile_cons, hx, ih]
    · simp [List.dropWhile_cons, hx]

theorem trimSpace_left_fix (l : List Char) :
    (trimSpace l).dropWhile isWS = trimSpace l := by
  unfold trimSpace
  cases hA : l.dropWhile isWS with
  | nil => simp
  | cons a t =>
    have ha : isWS a = false := head_dropWhile_false isWS l a (by rw [hA]; rfl)
    rw [List.reverse_cons, dropWhile_append_singleton isWS a ha,
      List.reverse_append]
    simp [List.dropWhile_cons, ha]

theorem trimSpace_idem (l : List Char) :
    trimSpace (trimSpace l) = trimSpace l := by
  have h1 := trimSpace_left_fix l
  unfold trimSpace
  unfold trimSpace at h1
  rw [h1, List.reverse_reverse, dropWhile_idem]

theorem bindE_ok (a : α) (f : α → Except ε β) :
    (Except.ok a >>= f) = f a := rfl

theorem bindE_err (e : ε) (f : α → Except ε β) :
    ((Except.error e : Except ε α) >>= f) = Except.error e := rfl

theorem drop_append_plus (A : List α) (B : List α) (n : Nat) :
    (A ++ B).drop (A.length + n) = B.drop n := by
  induction A with
  | nil => simp
  | cons a t ih =>
    have h : t.length + 1 + n = t.length + n + 1 := by omega
    rw [List.cons_append, List.length_cons, h, List.drop_succ_cons, ih]

theorem takeWhile_append_stop (p : α → Bool) :
    ∀ (s : List α) (c : α) (rest : List α), (∀ x ∈ s, p x = true) →
      p c = false → (s ++ c :: rest).takeWhile p = s := by
  intro s
  induction s with
  | nil => intro c rest _ hc; simp [List.takeWhile_cons, hc]
  | cons x t ih =>
    intro c rest hall hc
    have hx : p x = true := hall x (List.mem_cons_self _ _)
    rw [List.cons_append, List.takeWhile_cons, if_pos hx,
      ih c rest (fun y hy => hall y (List.mem_cons_of_mem _ hy)) hc]

theorem takeWhile_take_eq (p : α → Bool) :
    ∀ (xs : List α) (m : Nat) (s : List α), (xs.take m).takeWhile p = s →
      s.length < m → xs.takeWhile p = s := by
  intro xs
  induction xs with
  | nil =>
    intro m s h _
    simpa using h
  | cons x t ih =>
    intro m s h hlt
    cases m with
    | zero =>
      simp at h
      omega
    | succ m =>
      rw [List.take_succ_cons] at h
      by_cases hp : p x = true
      · rw [List.takeWhile_cons, if_pos hp] at h
        cases s with
        | nil => simp at h
        | cons y ys =>
          injection h with h1 h2
          subst h1
          rw [List.takeWhile_cons, if_pos hp, ih m ys h2 (by simpa using hlt)]
      · rw [List.takeWhile_cons, if_neg hp] at h
        rw [List.takeWhile_cons, if_neg hp]
        exact h

theorem nts_ok_of_drop (data : List Nat) (off : Nat) (s rest : List Nat)
    (hdrop : data.drop off = s ++ 0 :: rest) (hs : 0 ∉ s) :
    A2S.readNullTerminatedString data off = .ok (s, off + s.length + 1) := by
  have hTW : (data.drop off).takeWhile (fun b => b ≠ 0) = s := by
    rw [hdrop]
    exact takeWhile_append_stop _ s 0 rest
      (fun x hx => by simp; exact fun he => hs (he ▸ hx)) (by simp)
  have hlen : data.length - off = s.length + rest.length + 1 := by
    rw [← List.length_drop, hdrop]
    simp
    omega
  unfold A2S.readNullTerminatedString
  rw [hTW, if_neg (by omega)]

theorem nts_take_ok (l : List Nat) (k off : Nat) (s : List Nat) (o' : Nat)
    (h : A2S.readNullTerminatedString (l.take k) off = .ok (s, o')) :
    A2S.readNullTerminatedString l off = .ok (s, o') ∧ o' ≤ k := by
  unfold A2S.readNullTerminatedString at h ⊢
  by_cases hc : (l.take k).length ≤
      off + (((l.take k).drop off).takeWhile (fun b => b ≠ 0)).length
  · rw [if_pos hc] at h
    cases h
  · rw [if_neg hc] at h
    injection h with hpair
    injection hpair with hs ho
    rw [List.length_take] at hc
    have hslt : (((l.take k).drop off).takeWhile
        (fun b => b ≠ 0)).length < k - off := by omega
    have hTW : (l.drop off).takeWhile (fun b => b ≠ 0) =
        ((l.take k).drop off).takeWhile (fun b => b ≠ 0) := by
      refine takeWhile_take_eq _ (l.drop off) (k - off) _ ?_ hslt
      rw [← List.drop_take]
    rw [hTW, if_neg (by omega)]
    refine ⟨?_, by omega⟩
    rw [hs] at ho
    rw [hs, ho]

theorem bind_ok_elim (m : Except ε α) (f : α → Except ε β) (out : β)
    (h : (m >>= f) = .ok out) : ∃ a, m = .ok a ∧ f a = .ok out := by
  cases m with
  | error e => rw [bindE_err] at h; exact Except.noConfusion h
  | ok a => rw [bindE_ok] at h; exact ⟨a, rfl, h⟩

theorem parseInfo_truncation_fails (i : A2S.Info) (hv : A2S.ValidInfo i)
    (k : Nat) (hk : k < (A2S.serializeInfo i).length) :
    okE (A2S.parseA2SInfoResponse ((A2S.serializeInfo i).take k)) = false := by
  obtain ⟨hv1, hv2, hv3, hv4, hv5⟩ := hv
  have hL : A2S.serializeInfo i = i.protocolVersion :: A2S.tailName i := by
    simp [A2S.serializeInfo, A2S.tailName, A2S.tailMap, A2S.tailFolder,
      A2S.tailGame, A2S.tailFixed]
  have hd1 : (A2S.serializeInfo i).drop 1 = A2S.tailName i := by
    rw [hL]
    rfl
  have hd2 : (A2S.serializeInfo i).drop (1 + i.name.length + 1) =
      A2S.tailMap i := by
    have e : 1 + i.name.length + 1 = i.name.length + 1 + 1 := by omega
    rw [e, hL, List.drop_succ_cons, A2S.tailName, drop_append_plus]
    rfl
  have hd3 : (A2S.serializeInfo i).drop
      (1 + i.name.length + 1 + i.mapName.length + 1) = A2S.tailFolder i := by
    have e : 1 + i.name.length + 1 + i.mapName.length + 1 =
        (1 + i.name.length + 1) + (i.mapName.length + 1) := by omega
    rw [e, ← List.drop_drop, hd2, A2S.tailMap, drop_append_plus]
    rfl
  have hd4 : (A2S.serializeInfo i).drop
      (1 + i.name.length + 1 + i.mapName.length + 1 + i.folder.length + 1) =
      A2S.tailGame i := by
    have e : 1 + i.name.length + 1 + i.mapName.length + 1 + i.folder.length + 1 =
        (1 + i.name.length + 1 + i.mapName.length + 1) + (i.folder.length + 1) := by
      omega
    rw [e, ← List.drop_drop, hd3, A2S.tailFolder, drop_append_plus]
    rfl
  have hdV : (A2S.serializeInfo i).drop
      (1 + i.name.length + 1 + i.mapName.length + 1 + i.folder.length + 1 +
        i.game.length + 1 + 9) = i.version ++ 0 :: [] := by
    have e : 1 + i.name.length + 1 + i.mapName.length + 1 + i.folder.length +
        1 + i.game.length + 1 + 9 =
        (1 + i.name.length + 1 + i.mapName.length + 1 + i.folder.length + 1) +
        (i.game.length + 10) := by
      omega
    rw [e, ← List.drop_drop, hd4, A2S.tailGame, drop_append_plus,
      A2S.tailFixed]
    rfl
  have hi1 := nts_ok_of_drop (A2S.serializeInfo i) 1 i.name (A2S.tailMap i)
    (by rw [hd1, A2S.tailName]) hv1
  have hi2 := nts_ok_of_drop (A2S.serializeInfo i) (1 + i.name.length + 1)
    i.mapName (A2S.tailFolder i) (by rw [hd2, A2S.tailMap]) hv2
  have hi3 := nts_ok_of_drop (A2S.serializeInfo i)
    (1 + i.name.length + 1 + i.mapName.length + 1) i.folder (A2S.tailGame i)
    (by rw [hd3, A2S.tailFolder]) hv3
  have hi4 := nts_ok_of_drop (A2S.serializeInfo i)
    (1 + i.name.length + 1 + i.mapName.length + 1 + i.folder.length + 1)
    i.game (A2S.tailFixed i) (by rw [hd4, A2S.tailGame]) hv4
  have hiV := nts_ok_of_drop (A2S.serializeInfo i)
    (1 + i.name.length + 1 + i.mapName.length + 1 + i.folder.length + 1 +
      i.game.length + 1 + 9) i.version [] (by rw [hdV]) hv5
  have hlen : (A2S.serializeInfo i).length =
      1 + i.name.length + 1 + i.mapName.length + 1 + i.folder.length + 1 +
        i.game.length + 1 + 9 + i.version.length + 1 := by
    rw [hL]
    simp only [A2S.tailName, A2S.tailMap, A2S.tailFolder, A2S.tailGame,
      A2S.tailFixed, List.length_cons, List.length_append, List.length_nil]
    omega
  by_contra hcon
  have hex : ∃ out, A2S.parseA2SInfoResponse ((A2S.serializeInfo i).take k) =
      .ok out := by
    cases hp : A2S.parseA2SInfoResponse ((A2S.serializeInfo i).take k) with
    | ok out => exact ⟨out, rfl⟩
    | error e => exact absurd (by rw [hp]; rfl) hcon
  obtain ⟨out, hout⟩ := hex
  simp only [A2S.parseA2SInfoResponse] at hout
  by_cases h0 : ((A2S.serializeInfo i).take k).length < 1
  · rw [if_pos h0] at hout
    exact Except.noConfusion hout
  · rw [if_neg h0] at hout
    obtain ⟨pv, hs1, hout⟩ := bind_ok_elim _ _ _ hout
    try dsimp only at hout
    obtain ⟨pr1, hs2, hout⟩ := bind_ok_elim _ _ _ hout
    obtain ⟨s1, o1⟩ := pr1
    try dsimp only at hout
    obtain ⟨ht2, hk2⟩ := nts_take_ok (A2S.serializeInfo i) k 1 s1 o1 hs2
    have he2 := ht2.symm.trans hi1
    injection he2 with hpr
    injection hpr with hseq hoeq
    subst hseq
    subst hoeq
    obtain ⟨pr2, hs3, hout⟩ := bind_ok_elim _ _ _ hout
    obtain ⟨s2, o2⟩ := pr2
    try dsimp only at hout
    obtain ⟨ht3, hk3⟩ := nts_take_ok (A2S.serializeInfo i) k _ s2 o2 hs3
    have he3 := ht3.symm.trans hi2
    injection he3 with hpr
    injection hpr with hseq hoeq
    subst hseq
    subst hoeq
    obtain ⟨pr3, hs4, hout⟩ := bind_ok_elim _ _ _ hout
    obtain ⟨s3, o3⟩ := pr3
    try dsimp only at hout
    obtain ⟨ht4, hk4⟩ := nts_take_ok (A2S.serializeInfo i) k _ s3 o3 hs4
    have he4 := ht4.symm.trans hi3
    injection he4 with hpr
    injection hpr with hseq hoeq
    subst hseq
    subst hoeq
    obtain ⟨pr4, hs5, hout⟩ := bind_ok_elim _ _ _ hout
    obtain ⟨s4, o4⟩ := pr4
    try dsimp only at hout
    obtain ⟨ht5, hk5⟩ := nts_take_ok (A2S.serializeInfo i) k _ s4 o4 hs5
    have he5 := ht5.symm.trans hi4
    injection he5 with hpr
    injection hpr with hseq hoeq
    subst hseq
    subst hoeq
    obtain ⟨a6, hs6, hout⟩ := bind_ok_elim _ _ _ hout
    try dsimp only at hout
    obtain ⟨a7, hs7, hout⟩ := bind_ok_elim _ _ _ hout
    try dsimp only at hout
    obtain ⟨a8, hs8, hout⟩ := bind_ok_elim _ _ _ hout
    try dsimp only at hout
    obtain ⟨a9, hs9, hout⟩ := bind_ok_elim _ _ _ hout
    try dsimp only at hout
    obtain ⟨a10, hs10, hout⟩ := bind_ok_elim _ _ _ hout
    try dsimp only at hout
    obtain ⟨a11, hs11, hout⟩ := bind_ok_elim _ _ _ hout
    try dsimp only at hout
    obtain ⟨a12, hs12, hout⟩ := bind_ok_elim _ _ _ hout
    try dsimp only at hout
    obtain ⟨a13, hs13, hout⟩ := bind_ok_elim _ _ _ hout
    try dsimp only at hout
    obtain ⟨prV, hsV, hout⟩ := bind_ok_elim _ _ _ hout
    obtain ⟨sV, oV⟩ := prV
    obtain ⟨htV, hkV⟩ := nts_take_ok (A2S.serializeInfo i) k _ sV oV hsV
    have heV := htV.symm.trans hiV
    injection heV with hpr
    injection hpr with hseq hoeq
    omega

theorem contains_active {active : Nat → Bool} {rec : List Nat} {port : Nat}
    (hrec : ∀ p ∈ rec, active p = true) (h : rec.contains port = true) :
    active port = true :=
  hrec port (by simpa using h)

theorem scanUp_rec_active (active : Nat → Bool) :
    ∀ (fuel : Nat) (rec : List Nat) (port failures : Nat),
      (∀ p ∈ rec, active p = true) →
      ∀ p ∈ (Engine.scanUp active rec port fuel failures).1, active p = true := by
  intro fuel
  induction fuel with
  | zero => intro rec port failures h p hp; exact h p hp
  | succ fuel ih =>
    intro rec port failures h p hp
    rw [Engine.scanUp] at hp
    by_cases h1 : 65535 < port
    · rw [if_pos h1] at hp; exact h p hp
    · rw [if_neg h1] at hp
      by_cases h2 : rec.contains port = true
      · rw [if_pos h2] at hp; exact ih _ _ _ h p hp
      · rw [if_neg h2] at hp
        by_cases h3 : active port = true
        · rw [if_pos h3] at hp
          refine ih (port :: rec) (port + 1) 0 ?_ p hp
          intro q hq
          rcases List.mem_cons.mp hq with rfl | hq
          · exact h3
          · exact h q hq
        · rw [if_neg h3] at hp
          by_cases h4 : Engine.deadPortThreshold ≤ failures + 1
          · rw [if_pos h4] at hp; exact h p hp
          · rw [if_neg h4] at hp; exact ih _ _ _ h p hp

theorem scanDown_rec_active (active : Nat → Bool) :
    ∀ (fuel : Nat) (rec : List Nat) (port failures : Nat),
      (∀ p ∈ rec, active p = true) →
      ∀ p ∈ (Engine.scanDown active rec port fuel failures).1, active p = true := by
  intro fuel
  induction fuel with
  | zero => intro rec port failures h p hp; exact h p hp
  | succ fuel ih =>
    intro rec port failures h p hp
    rw [Engine.scanDown] at hp
    by_cases h1 : port < 1024
    · rw [if_pos h1] at hp; exact h p hp
    · rw [if_neg h1] at hp
      by_cases h2 : rec.contains port = true
      · rw [if_pos h2] at hp; exact ih _ _ _ h p hp
      · rw [if_neg h2] at hp
        by_cases h3 : active port = true
        · rw [if_pos h3] at hp
          refine ih (port :: rec) (port - 1) 0 ?_ p hp
          intro q hq
          rcases List.mem_cons.mp hq with rfl | hq
          · exact h3
          · exact h q hq
        · rw [if_neg h3] at hp
          by_cases h4 : Engine.deadPortThreshold ≤ failures + 1
          · rw [if_pos h4] at hp; exact h p hp
          · rw [if_neg h4] at hp; exact ih _ _ _ h p hp

theorem activeRun_up_lt (active : Nat → Bool) (m port : Nat)
    (hm0 : active m = false) (hm1 : active (m + 1) = false)
    (hm2 : active (m + 2) = false) (hact : active port = true)
    (hpos : port ≤ m ∨ port = m + 1 ∨ port = m + 2) : port + 1 ≤ m := by
  rcases hpos with hp | hp | hp
  · rcases Nat.eq_or_lt_of_le hp with he | hl
    · rw [he, hm0] at hact; simp at hact
    · omega
  · rw [hp, hm1] at hact; simp at hact
  · rw [hp, hm2] at hact; simp at hact

theorem activeRun_down_gt (active : Nat → Bool) (m port : Nat)
    (hm0 : active m = false) (hm1 : active (m - 1) = false)
    (hm2 : active (m - 2) = false) (hact : active port = true)
    (hpos : m ≤ port ∨ port = m - 1 ∨ port = m - 2) : m ≤ port - 1 := by
  rcases hpos with hp | hp | hp
  · rcases Nat.eq_or_lt_of_le hp with he | hl
    · rw [← he, hm0] at hact; simp at hact
    · omega
  · rw [hp, hm1] at hact
    rcases Nat.eq_zero_or_pos m with hz | hpos
    · subst hz; simp at hact
    · simp at hact
  · rw [hp, hm2] at hact; simp at hact

theorem scanUp_probes_bound (active : Nat → Bool) (m : Nat)
    (hm0 : active m = false) (hm1 : active (m + 1) = false)
    (hm2 : active (m + 2) = false) :
    ∀ (fuel : Nat) (rec : List Nat) (port failures : Nat),
      (∀ p ∈ rec, active p = true) →
      (port ≤ m ∨ (port = m + 1 ∧ 1 ≤ failures) ∨
        (port = m + 2 ∧ 2 ≤ failures)) →
      ∀ q ∈ (Engine.scanUp active rec port fuel failures).2, q ≤ m + 2 := by
  intro fuel
  induction fuel with
  | zero => intro rec port failures _ _ q hq; simp [Engine.scanUp] at hq
  | succ fuel ih =>
    intro rec port failures hrec hpos q hq
    rw [Engine.scanUp] at hq
    by_cases h1 : 65535 < port
    · rw [if_pos h1] at hq; simp at hq
    · rw [if_neg h1] at hq
      by_cases h2 : rec.contains port = true
      · rw [if_pos h2] at hq
        have hlt := activeRun_up_lt active m port hm0 hm1 hm2
          (contains_active hrec h2) (by rcases hpos with h | ⟨h, _⟩ | ⟨h, _⟩ <;> omega)
        exact ih rec (port + 1) 0 hrec (Or.inl hlt) q hq
      · rw [if_neg h2] at hq
        by_cases h3 : active port = true
        · rw [if_pos h3] at hq
          have hlt := activeRun_up_lt active m port hm0 hm1 hm2 h3
            (by rcases hpos with h | ⟨h, _⟩ | ⟨h, _⟩ <;> omega)
          rcases List.mem_cons.mp hq with rfl | hq
          · omega
          · refine ih (port :: rec) (port + 1) 0 ?_ (Or.inl hlt) q hq
            intro p hp
            rcases List.mem_cons.mp hp with rfl | hp
            · exact h3
            · exact hrec p hp
        · rw [if_neg h3] at hq
          by_cases h4 : Engine.deadPortThreshold ≤ failures + 1
          · rw [if_pos h4] at hq
            have : q = port := by simpa using hq
            subst this
            rcases hpos with h | ⟨h, _⟩ | ⟨h, _⟩ <;> omega
          · rw [if_neg h4] at hq
            have h4' : failures + 1 < 3 := by
              simp only [Engine.deadPortThreshold, Nat.not_le] at h4
              exact h4
            rcases List.mem_cons.mp hq with rfl | hq
            · rcases hpos with h | ⟨h, _⟩ | ⟨h, _⟩ <;> omega
            · refine ih rec (port + 1) (failures + 1) hrec ?_ q hq
              rcases hpos with h | ⟨h, hf⟩ | ⟨h, hf⟩
              · rcases Nat.eq_or_lt_of_le h with he | hl
                · exact Or.inr (Or.inl ⟨by omega, by omega⟩)
                · exact Or.inl (by omega)
              · exact Or.inr (Or.inr ⟨by omega, by omega⟩)
              · omega

theorem scanDown_probes_bound (active : Nat → Bool) (m : Nat)
    (hm0 : active m = false) (hm1 : active (m - 1) = false)
    (hm2 : active (m - 2) = false) :
    ∀ (fuel : Nat) (rec : List Nat) (port failures : Nat),
      (∀ p ∈ rec, active p = true) →
      (m ≤ port ∨ (port = m - 1 ∧ 1 ≤ failures) ∨
        (port = m - 2 ∧ 2 ≤ failures)) →
      ∀ q ∈ (Engine.scanDown active rec port fuel failures).2, m - 2 ≤ q := by
  intro fuel
  induction fuel with
  | zero => intro rec port failures _ _ q hq; simp [Engine.scanDown] at hq
  | succ fuel ih =>
    intro rec port failures hrec hpos q hq
    rw [Engine.scanDown] at hq
    by_cases h1 : port < 1024
    · rw [if_pos h1] at hq; simp at hq
    · rw [if_neg h1] at hq
      by_cases h2 : rec.contains port = true
      · rw [if_pos h2] at hq
        have hgt := activeRun_down_gt active m port hm0 hm1 hm2
          (contains_active hrec h2) (by rcases hpos with h | ⟨h, _⟩ | ⟨h, _⟩ <;> omega)
        exact ih rec (port - 1) 0 hrec (Or.inl hgt) q hq
      · rw [if_neg h2] at hq
        by_cases h3 : active port = true
        · rw [if_pos h3] at hq
          have hgt := activeRun_down_gt active m port hm0 hm1 hm2 h3
            (by rcases hpos with h | ⟨h, _⟩ | ⟨h, _⟩ <;> omega)
          rcases List.mem_cons.mp hq with rfl | hq
          · omega
          · refine ih (port :: rec) (port - 1) 0 ?_ (Or.inl hgt) q hq
            intro p hp
            rcases List.mem_cons.mp hp with rfl | hp
            · exact h3
            · exact hrec p hp
        · rw [if_neg h3] at hq
          by_cases h4 : Engine.deadPortThreshold ≤ failures + 1
          · rw [if_pos h4] at hq
            have : q = port := by simpa using hq
            subst this
            rcases hpos with h | ⟨h, _⟩ | ⟨h, _⟩ <;> omega
          · rw [if_neg h4] at hq
            have h4' : failures + 1 < 3 := by
              simp only [Engine.deadPortThreshold, Nat.not_le] at h4
              exact h4
            rcases List.mem_cons.mp hq with rfl | hq
            · rcases hpos with h | ⟨h, _⟩ | ⟨h, _⟩ <;> omega
            · refine ih rec (port - 1) (failures + 1) hrec ?_ q hq
              rcases hpos with h | ⟨h, hf⟩ | ⟨h, hf⟩
              · rcases Nat.eq_or_lt_of_le h with he | hl
                · exact Or.inr (Or.inl ⟨by omega, by omega⟩)
                · exact Or.inl (by omega)
              · exact Or.inr (Or.inr ⟨by omega, by omega⟩)
              · omega

theorem probeLog_cons (e : Engine.SeedLog) (logs : List Engine.SeedLog) :
    Engine.probeLog (e :: logs) =
      e.seed :: (e.upProbes ++ e.downProbes ++ Engine.probeLog logs) := rfl

theorem discover_spec (active : Nat → Bool) :
    ∀ (seeds rec : List Nat), (∀ p ∈ rec, active p = true) →
      (∀ s ∈ seeds, s ∈ Engine.probeLog
        (Engine.discoverPortsDynamically active rec seeds).2) ∧
      (∀ e ∈ (Engine.discoverPortsDynamically active rec seeds).2,
        (∀ m, e.seed + 1 ≤ m → active m = false → active (m + 1) = false →
          active (m + 2) = false → ∀ q ∈ e.upProbes, q ≤ m + 2) ∧
        (∀ m, m ≤ e.seed - 1 → active m = false → active (m - 1) = false →
          active (m - 2) = false → ∀ q ∈ e.downProbes, m - 2 ≤ q)) := by
  intro seeds
  induction seeds with
  | nil =>
    intro rec h
    exact ⟨by simp, by intro e he; simp [Engine.discoverPortsDynamically] at he⟩
  | cons s rest ih =>
    intro rec hrec
    have hrec1 : ∀ p ∈ (if active s then
        (if rec.contains s then rec else s :: rec) else rec), active p = true := by
      by_cases hs : active s = true
      · by_cases hc : rec.contains s = true
        · have hc' : s ∈ rec := by simpa using hc
          simpa [hs, hc'] using hrec
        · have hc' : s ∉ rec := by simpa using hc
          simp only [hs, if_true]
          rw [if_neg (by simpa using hc)]
          intro p hp
          rcases List.mem_cons.mp hp with rfl | hp
          · exact hs
          · exact hrec p hp
      · simpa [hs] using hrec
    have hrec2 := scanUp_rec_active active 65536 _ (s + 1) 0 hrec1
    have hrec3 := scanDown_rec_active active 65536 _ (s - 1) 0 hrec2
    obtain ⟨ihA, ihB⟩ := ih _ hrec3
    constructor
    · intro t ht
      rcases List.mem_cons.mp ht with rfl | ht
      · exact List.mem_cons_self _ _
      · exact List.mem_cons_of_mem _ (List.mem_append_right _ (ihA t ht))
    · intro e he
      rcases List.mem_cons.mp he with rfl | he
      · constructor
        · intro m hm hm0 hm1 hm2 q hq
          exact scanUp_probes_bound active m hm0 hm1 hm2 65536 _ (s + 1) 0
            hrec1 (Or.inl hm) q hq
        · intro m hm hm0 hm1 hm2 q hq
          exact scanDown_probes_bound active m hm0 hm1 hm2 65536 _ (s - 1) 0
            hrec2 (Or.inl hm) q hq
      · exact ihB e he

/-- Claim C8: during dynamic port discovery every seed port is probed,
and each directional scan from a seed never probes past a run of 3
consecutive non-responsive ports: upward, once `m ≥ seed+1` and `m`,
`m+1`, `m+2` are all dead, no port above `m+2` is probed; downward,
once `m ≤ seed-1` and `m`, `m-1`, `m-2` are all dead, no port below
`m-2` is probed. -/
theorem c8_discovery_scan_invariants :
    ∀ (active : Nat → Bool) (seeds : List Nat),
      (∀ s ∈ seeds, s ∈ Engine.probeLog
        (Engine.discoverPortsDynamically active [] seeds).2) ∧
      (∀ e ∈ (Engine.discoverPortsDynamically active [] seeds).2,
        (∀ m, e.seed + 1 ≤ m → active m = false → active (m + 1) = false →
          active (m + 2) = false → ∀ q ∈ e.upProbes, q ≤ m + 2) ∧
        (∀ m, m ≤ e.seed - 1 → active m = false → active (m - 1) = false →
          active (m - 2) = false → ∀ q ∈ e.downProbes, m - 2 ≤ q)) :=
  fun active seeds => discover_spec active seeds [] (by simp)

/-- Witness for C8: with servers on 27015 and 27017 only and seed
27015, the seed is probed; the upward scan (which probed up to 27020)
respects the dead run starting at 27018, and the downward scan (which
probed down to 27012) respects the dead run starting at 27014. -/
theorem c8_discovery_scan_invariants_witness :
    27015 ∈ Engine.probeLog
      (Engine.discoverPortsDynamically c8active [] [27015]).2 ∧
    (27020 : Nat) ≤ 27018 + 2 ∧ (27014 : Nat) - 2 ≤ 27012 := by
  have h := c8_discovery_scan_invariants c8active [27015]
  refine ⟨h.1 27015 (by decide), ?_, ?_⟩
  · exact (h.2 c8entry (by decide)).1 27018 (by decide) (by decide) (by decide)
      (by decide) 27020 (by decide)
  · exact (h.2 c8entry (by decide)).2 27014 (by decide) (by decide) (by decide)
      (by decide) 27012 (by decide)

/-- Counterexample to claim C7 as stated: cleaning "§§aa" strips the
inner escape and leaves "§a", which a second cleaning strips entirely,
so MOTD cleaning is not idempotent. -/
theorem c7_motd_counterexample :
    Minecraft.cleanMotd (.str (Minecraft.cleanMotd (.str "§§aa"))) ≠
      Minecraft.cleanMotd (.str "§§aa") ∧
    Minecraft.cleanMotd (.str "§§aa") = "§a" := by
  decide

/-- Claim C7 (amended): MOTD cleaning is idempotent on every
description whose cleaned output contains no remaining color-code
escape (stripping can re-create an escape, as in "§§aa", and only then
does a second cleaning differ); a plain-string description and an
equivalent single-fragment rich-text description always produce
identical cleaned output. -/
theorem c7_motd_cleaning :
    (∀ m : Minecraft.MotdValue,
      Minecraft.stripColorCodes (Minecraft.cleanMotd m).data =
        (Minecraft.cleanMotd m).data →
      Minecraft.cleanMotd (.str (Minecraft.cleanMotd m)) =
        Minecraft.cleanMotd m) ∧
    (∀ s, Minecraft.cleanMotd (.str s) =
      Minecraft.cleanMotd (.obj (some s) none)) ∧
    (∀ s, Minecraft.cleanMotd (.str s) =
      Minecraft.cleanMotd (.obj none (some [.strItem s]))) := by
  refine ⟨fun m h => ?_, fun s => ?_, fun s => ?_⟩
  · show String.mk
      (trimSpace (Minecraft.stripColorCodes (Minecraft.cleanMotd m).data)) =
      Minecraft.cleanMotd m
    rw [h]
    show String.mk (trimSpace (trimSpace
      (Minecraft.stripColorCodes (Minecraft.concatText m)))) = _
    rw [trimSpace_idem]
    rfl
  · simp [Minecraft.cleanMotd, Minecraft.concatText]
  · simp [Minecraft.cleanMotd, Minecraft.concatText, Minecraft.itemText]

/-- Witness for C7 (amended): idempotence at a concrete description
whose cleaned output has no remaining escape, and the plain/rich
agreement at a concrete string. -/
theorem c7_motd_cleaning_witness :
    Minecraft.cleanMotd (.str (Minecraft.cleanMotd (.str " §ahi "))) =
      Minecraft.cleanMotd (.str " §ahi ") ∧
    Minecraft.cleanMotd (.str "abc") =
      Minecraft.cleanMotd (.obj (some "abc") none) :=
  ⟨c7_motd_cleaning.1 (.str " §ahi ") (by decide), c7_motd_cleaning.2.1 "abc"⟩

theorem tryProtocolsOnPort_ok (host : String) (port : Nat)
    (atts : List GoResult) :
    okE (Engine.tryProtocolsOnPort host port atts) =
      atts.any Engine.success := by
  induction atts with
  | nil => rfl
  | cons a rest ih =>
    by_cases h : Engine.success a = true
    · simp [Engine.tryProtocolsOnPort, h, okE]
    · simp [Engine.tryProtocolsOnPort, h, ih]

theorem singleAdjacentLoop_ok (host : String)
    (prs : List (Nat × List GoResult)) :
    okE (Engine.singleAdjacentLoop host prs) =
      prs.any fun pr => pr.2.any Engine.success := by
  induction prs with
  | nil => rfl
  | cons pr rest ih =>
    obtain ⟨port, atts⟩ := pr
    cases h : Engine.tryProtocolsOnPort host port atts with
    | ok info =>
      have ho : okE (Engine.tryProtocolsOnPort host port atts) = true := by
        rw [h]; rfl
      rw [tryProtocolsOnPort_ok] at ho
      simp [Engine.singleAdjacentLoop, h, okE, ho]
    | error e =>
      have ho : okE (Engine.tryProtocolsOnPort host port atts) = false := by
        rw [h]; rfl
      rw [tryProtocolsOnPort_ok] at ho
      simp [Engine.singleAdjacentLoop, h, ih, ho]

theorem executeSingleQuery_ok (host : String) (port0 : Nat)
    (senv : Engine.SingleEnv) :
    okE (Engine.executeSingleQuery host port0 senv) =
      (Engine.success senv.primary ||
        senv.adjacent.any fun pr => pr.2.any Engine.success) := by
  by_cases h : Engine.success senv.primary = true
  · simp [Engine.executeSingleQuery, h, okE]
  · simp [Engine.executeSingleQuery, h, singleAdjacentLoop_ok]

theorem executeAutoDetectQuery_ok (host : String)
    (cands : List (Nat × GoResult)) :
    okE (Engine.executeAutoDetectQuery host cands) =
      cands.any fun c => Engine.success c.2 := by
  induction cands with
  | nil => rfl
  | cons c rest ih =>
    obtain ⟨port, a⟩ := c
    by_cases h : Engine.success a = true
    · simp [Engine.executeAutoDetectQuery, h, okE]
    · simp [Engine.executeAutoDetectQuery, h, ih]

theorem discoverPort_none (host : String) (port : Nat)
    (atts : List GoResult) :
    Engine.discoverPort host port atts = none ↔
      ∀ a ∈ atts, Engine.success a = false := by
  induction atts with
  | nil => simp [Engine.discoverPort]
  | cons a rest ih =>
    by_cases h : Engine.success a = true <;>
      simp [Engine.discoverPort, h, ih]

/-- Counterexample to claim C2 as stated: a discovery request whose
only candidate fails returns an empty server list with a nil error,
not the terminal "no responsive server found" error the claim
demands on exhaustion. -/
theorem c2_discovery_no_terminal_error :
    Engine.success failAttempt = false ∧
    (Engine.executeDiscoveryQuery "h" [(27015, [failAttempt])]).1 = [] ∧
    (Engine.executeDiscoveryQuery "h" [(27015, [failAttempt])]).2 = none := by
  decide

/-- Claim C2 (amended): for single queries and auto-detection, a codec
error or Online=false outcome merely advances to the next candidate and
the terminal error is returned exactly when every candidate fails; a
discovery request never returns the terminal error — it returns the
(possibly empty) list of per-port successes with a nil error. -/
theorem c2_engine_failure_policy :
    ∀ (host : String) (port0 : Nat) (senv : Engine.SingleEnv)
      (cands : List (Nat × GoResult)) (perPort : List (Nat × List GoResult)),
      (okE (Engine.executeSingleQuery host port0 senv) = false ↔
        (Engine.success senv.primary = false ∧
          ∀ pr ∈ senv.adjacent, ∀ a ∈ pr.2, Engine.success a = false)) ∧
      (okE (Engine.executeAutoDetectQuery host cands) = false ↔
        ∀ c ∈ cands, Engine.success c.2 = false) ∧
      (Engine.executeDiscoveryQuery host perPort).2 = none ∧
      ((Engine.executeDiscoveryQuery host perPort).1 = [] ↔
        ∀ pr ∈ perPort, ∀ a ∈ pr.2, Engine.success a = false) := by
  intro host port0 senv cands perPort
  refine ⟨?_, ?_, rfl, ?_⟩
  · rw [executeSingleQuery_ok]
    simp [List.any_eq_true]
  · rw [executeAutoDetectQuery_ok]
    simp [List.any_eq_true]
  · simp only [Engine.executeDiscoveryQuery, List.filterMap_eq_nil_iff]
    constructor
    · intro h pr hpr
      exact (discoverPort_none host pr.1 pr.2).mp (h pr hpr)
    · intro h pr hpr
      exact (discoverPort_none host pr.1 pr.2).mpr (h pr hpr)

/-- Witness for C2 (amended): exhaustion at concrete candidate sets
yields the terminal error for single and auto-detect requests. -/
theorem c2_engine_failure_policy_witness :
    okE (Engine.executeSingleQuery "h" 27015
      { primary := failAttempt, adjacent := [] }) = false ∧
    okE (Engine.executeAutoDetectQuery "h" []) = false := by
  have h := c2_engine_failure_policy "h" 27015
    { primary := failAttempt, adjacent := [] } [] []
  exact ⟨h.1.mpr ⟨by decide, by simp⟩, h.2.1.mpr (by simp)⟩

theorem buildResult_ping (env : A2S.Env) (i : A2S.Info) (ping : Nat)
    (opts : Options) : (A2S.buildResult env i ping opts).ping = ping := by
  by_cases hp : opts.players = true
  · cases hq : A2S.queryPlayers env <;> simp [A2S.buildResult, hp, hq]
  · simp [A2S.buildResult, hp]

theorem a2s_ping_first_exchange (env : A2S.Env) (opts : Options) :
    (A2S.Query env opts).err.isSome = true ∨
    ((A2S.Query env opts).info.getD {}).ping = env.firstDur := by
  simp only [A2S.Query, A2S.queryWithChallenge]
  repeat' split
  all_goals first
    | exact .inl rfl
    | exact .inr (buildResult_ping _ _ _ _)

/-- Counterexample to claim C6 as stated: the engine surfaces an A2S
result whose Ping (1111ms) is the whole-call duration including
connection setup, the challenge round-trip and the player-list
exchange, not the 10ms first-exchange time the claim demands. -/
theorem c6_engine_ping_counterexample :
    ((Engine.queryWithServerInfoA2S c6env { players := true } "h"
      27015).1.getD {}).ping = 1111 ∧
    c6env.firstDur = 10 ∧
    ((Engine.queryWithServerInfoA2S c6env { players := true } "h"
      27015).1.getD {}).ping ≠ c6env.firstDur := by
  decide

/-- Claim C6 (amended): the A2S codec stores as Ping the first-exchange
time alone (the challenge round-trip does not rebase the timer and the
player exchange is excluded), but the engine overwrites Ping on every
online result it surfaces with the wall-clock duration of the whole
codec call. -/
theorem c6_ping_measurement :
    ∀ (env : A2S.Env) (opts : Options) (host : String) (port : Nat),
      ((A2S.Query env opts).err = none →
        ((A2S.Query env opts).info.getD {}).ping = env.firstDur) ∧
      (∀ si, (Engine.queryWithServerInfoA2S env opts host port).1 = some si →
        si.online = true → si.ping = (A2S.Query env opts).elapsed) := by
  intro env opts host port
  constructor
  · intro h
    rcases a2s_ping_first_exchange env opts with hs | hp
    · rw [h] at hs; simp at hs
    · exact hp
  · intro si h hon
    simp only [Engine.queryWithServerInfoA2S, Engine.queryWithServerInfo] at h
    cases he : (A2S.Query env opts).err with
    | some e => rw [he] at h; simp at h
    | none =>
      rw [he] at h
      cases hi : (A2S.Query env opts).info with
      | none => rw [hi] at h; simp at h
      | some info =>
        rw [hi] at h
        by_cases ho : info.online = true
        · simp [ho] at h
          rw [← h]
          rfl
        · simp [ho] at h
          rw [← h] at hon
          exact absurd hon ho

/-- Witness for C6 (amended): the codec ping is the first-exchange
duration on a concrete oracle, and the engine-surfaced ping equals the
whole-call duration on the challenge-and-players oracle. -/
theorem c6_ping_measurement_witness :
    ((A2S.Query c1okEnv {}).info.getD {}).ping = c1okEnv.firstDur ∧
    c6SurfacedInfo.ping = (A2S.Query c6env { players := true }).elapsed := by
  refine ⟨(c6_ping_measurement c1okEnv {} "h" 27015).1 (by decide), ?_⟩
  exact (c6_ping_measurement c6env { players := true } "h" 27015).2
    c6SurfacedInfo (by decide) (by decide)

/-- Counterexample to claim C5 as stated: when the TCP dial to the game
port fails, the codec returns an error even though the TShock REST API
would yield a valid status, so REST success does not imply a
REST-derived result. -/
theorem c5_tiers_counterexample :
    ({ connOk := false, tshock := some {} } : Terraria.Env).tshock.isSome
      = true ∧
    (Terraria.Query { connOk := false, tshock := some {} } {}).err.isSome
      = true ∧
    ((Terraria.Query { connOk := false, tshock := some {} } {}).info.getD
      {}).online = false := by
  decide

/-- Claim C5 (amended): once the TCP connection to the game port
succeeds, the two tiers run in order with first success winning: a
valid REST status yields exactly the REST-derived result (the native
probe cannot affect it), and a successful result with REST failed comes
from parsing the native probe response; when the TCP dial fails, the
query errors without either tier influencing the outcome. -/
theorem c5_terraria_tier_order :
    ∀ (env : Terraria.Env) (opts : Options),
      (env.connOk = true → ∀ inf, Terraria.queryTShockAPI env = .ok inf →
        Terraria.Query env opts =
          { info := some { inf with ping := env.tshockDur }, err := none,
            elapsed := env.connDur + env.tshockDur }) ∧
      (env.connOk = true → ∀ e, Terraria.queryTShockAPI env = .error e →
        (Terraria.Query env opts).err = none →
        ∃ data inf, env.nativeResp = some data ∧
          Terraria.parseResponse data = .ok inf ∧
          Terraria.Query env opts =
            { info := some { inf with ping := env.tshockDur + env.nativeDur },
              err := none,
              elapsed := env.connDur + env.tshockDur + env.nativeDur }) ∧
      (env.connOk = false →
        Terraria.Query env opts =
          { info := some { online := false }, err := some "connection failed",
            elapsed := env.connDur }) := by
  intro env opts
  refine ⟨fun hc inf hok => ?_, fun hc e he hnoerr => ?_, fun hc => ?_⟩
  · simp [Terraria.Query, hc, hok]
  · cases hn : env.nativeResp with
    | none => simp [Terraria.Query, hc, he, hn] at hnoerr
    | some data =>
      cases hp : Terraria.parseResponse data with
      | error e2 => simp [Terraria.Query, hc, he, hn, hp] at hnoerr
      | ok inf =>
        exact ⟨data, inf, rfl, hp, by simp [Terraria.Query, hc, he, hn, hp]⟩
  · simp [Terraria.Query, hc]

/-- Witness for C5 (amended): the REST tier winning on a concrete
oracle, and the connection-failure case on another. -/
theorem c5_terraria_tier_order_witness :
    Terraria.Query { connOk := true, tshock := some {} } {} =
      { info := some { c5RestInfo with ping := 0 }, err := none,
        elapsed := 0 } ∧
    Terraria.Query { connOk := false } {} =
      { info := some { online := false }, err := some "connection failed",
        elapsed := 0 } :=
  ⟨(c5_terraria_tier_order { connOk := true, tshock := some {} } {}).1 rfl
      c5RestInfo rfl,
   (c5_terraria_tier_order { connOk := false } {}).2.2 rfl⟩

/-- Counterexample to claim C3 as stated: the engine resolves a
portless single-protocol query for "dayz" to the protocol default
27015, not to the game's registered query port 27016 that the claim
demands. -/
theorem c3_port_resolution_counterexample :
    Engine.resolveSingleQueryPort "dayz" none 0 = some 27015 ∧
    (theRegistry.getGameConfig "dayz").map (fun gc => gc.1.queryPort) =
      some 27016 := by
  decide

/-- Claim C3 (amended): single-query port resolution uses, in order, a
port in the address, a nonzero Options.Port, and the resolved
protocol's DefaultPort; the per-game QueryPort registry metadata is not
consulted, so "dayz" and "satisfactory" both resolve to 27015. -/
theorem c3_single_query_port_resolution :
    (∀ game p optsPort, (GetProtocol game).1 = some p → optsPort ≠ 0 →
      Engine.resolveSingleQueryPort game none optsPort = some optsPort) ∧
    (∀ game p, (GetProtocol game).1 = some p →
      Engine.resolveSingleQueryPort game none 0 = some p.defaultPort) ∧
    (∀ game p addrPort optsPort, (GetProtocol game).1 = some p →
      addrPort ≠ 0 →
      Engine.resolveSingleQueryPort game (some addrPort) optsPort =
        some addrPort) ∧
    Engine.resolveSingleQueryPort "dayz" none 0 = some 27015 ∧
    Engine.resolveSingleQueryPort "satisfactory" none 0 = some 27015 := by
  refine ⟨fun game p optsPort hp hop => ?_, fun game p hp => ?_,
    fun game p addrPort optsPort hp ha => ?_, by decide, by decide⟩
  · simp [Engine.resolveSingleQueryPort, Engine.parseAddressPort, hp, hop]
  · simp [Engine.resolveSingleQueryPort, Engine.parseAddressPort, hp]
  · simp [Engine.resolveSingleQueryPort, Engine.parseAddressPort, hp, ha]

/-- Witness for C3 (amended): explicit-port precedence and default
resolution at concrete games. -/
theorem c3_single_query_port_resolution_witness :
    Engine.resolveSingleQueryPort "dayz" none 12345 = some 12345 ∧
    Engine.resolveSingleQueryPort "minecraft" none 0 = some 25565 ∧
    Engine.resolveSingleQueryPort "dayz" (some 999) 12345 = some 999 :=
  ⟨c3_single_query_port_resolution.1 "dayz" .a2s 12345 (by decide) (by decide),
   c3_single_query_port_resolution.2.1 "minecraft" .minecraft (by decide),
   c3_single_query_port_resolution.2.2.1 "dayz" .a2s 999 12345 (by decide)
     (by decide)⟩

/-- Claim C10: Registry.Get resolves a direct protocol name before the
alias table, and a pure alias resolves to the protocol registered under
the alias's target name. -/
theorem c10_registry_get_precedence (r : Registry) (name : String) :
    (∀ p, r.protocols.lookup name = some p → r.get name = (some p, true)) ∧
    (∀ t q, r.protocols.lookup name = none → r.aliases.lookup name = some t →
      r.protocols.lookup t = some q → r.get name = (some q, true)) := by
  constructor
  · intro p hp
    simp [Registry.get, hp]
  · intro t q hp ha hq
    simp [Registry.get, hp, ha, hq]

/-- Witness for C10: in a registry where "minecraft" is both a protocol
and (via RegisterAlias) an alias, Get returns the protocol; the pure
alias "dayz" resolves to the a2s codec. -/
theorem c10_registry_get_precedence_witness :
    overlapRegistry.get "minecraft" = (some .minecraft, true) ∧
    overlapRegistry.get "dayz" = (some .a2s, true) :=
  ⟨(c10_registry_get_precedence overlapRegistry "minecraft").1 .minecraft
      (by decide),
   (c10_registry_get_precedence overlapRegistry "dayz").2 "a2s" .a2s
      (by decide) (by decide) (by decide)⟩

/-- Counterexample to claim C4: truncating a valid single-record
A2S_PLAYER payload after its count and index bytes does not produce a
parse error - parsePlayersResponse hits the record-loop bounds check,
breaks, and returns a successful empty player list. -/
theorem c4_player_truncation_counterexample :
    2 < c4PlayerPayload.length ∧
    A2S.parsePlayersResponse (c4PlayerPayload.take 2) = .ok [] :=
  ⟨by decide, rfl⟩

/-- C4 (amended): parseA2SInfoResponse rejects every strict truncation
of a valid serialized info payload with a parse error, but
parsePlayersResponse never fails on a nonempty buffer - record-level
truncation makes it break out of the loop and return the partial
(possibly empty) player list as a success. -/
theorem c4_truncation_behavior :
    (∀ i : A2S.Info, A2S.ValidInfo i →
      ∀ k, k < (A2S.serializeInfo i).length →
        okE (A2S.parseA2SInfoResponse ((A2S.serializeInfo i).take k)) =
          false) ∧
    (∀ data : List Nat, data ≠ [] →
      okE (A2S.parsePlayersResponse data) = true) := by
  constructor
  · intro i hv k hk
    exact parseInfo_truncation_fails i hv k hk
  · intro data hne
    unfold A2S.parsePlayersResponse
    rw [if_neg]
    · rfl
    · simp only [Nat.not_lt]
      exact List.length_pos.mpr hne

/-- Witness for C4: the concrete payload description c4Info is valid,
its serialization truncated to 5 bytes fails to parse, and the
truncated player payload parses successfully. -/
theorem c4_truncation_behavior_witness :
    A2S.ValidInfo c4Info ∧ 5 < (A2S.serializeInfo c4Info).length ∧
    okE (A2S.parseA2SInfoResponse ((A2S.serializeInfo c4Info).take 5)) =
      false ∧
    c4PlayerPayload.take 2 ≠ [] ∧
    okE (A2S.parsePlayersResponse (c4PlayerPayload.take 2)) = true :=
  ⟨by decide, by decide,
   c4_truncation_behavior.1 c4Info (by decide) 5 (by decide),
   by decide,
   c4_truncation_behavior.2 (c4PlayerPayload.take 2) (by decide)⟩
